import Mathlib

/-!
docker-swarm-autoscaler: the metrics cycle of `cmd/docker-swarm-autoscaler.go`

A shallow embedding of the two source files

* `internal/config/config.go` — the configuration records;
* `cmd/docker-swarm-autoscaler.go` — `calculateCPUPercent`, the stats receiver
  goroutine and the per-service goroutines started on every tick.

Conventions of the embedding.

* Unsigned counters (`uint64`, `uint32`, `uint16`) are natural numbers.
* A `float64` is the rational number it denotes.  `float64 x` is the rational `x`
  rounded to 53 significant bits, to nearest, ties to even; a conversion
  `float64(n)` of the source is `float64 n`, and a `float64` operation is that
  rounding applied to the exact result of the operation.  For `uint64` counters and a
  `uint32` CPU count every intermediate value of `calculateCPUPercent` is zero or
  has magnitude between `2^-64` and `2^103`, so neither overflow nor a subnormal
  result occurs, and this rounding is what IEEE 754 binary64 arithmetic computes.
* The Docker client is a record of three response functions, one per client call
  that `main` makes.  An `(x, err)` result pair of Go is an `Except String _`.
* A response body (`io.ReadCloser`) is identified with the outcome of decoding it
  with `json.NewDecoder(body).Decode`.
* `evalService` is one per-service goroutine run from its first line to its last
  with no other goroutine writing `ignoredServicesIds` in between.  The goroutines of
  a run share `ignoredServicesIds` without synchronisation; `step` and `run` execute
  an explicit interleaving of their accesses to it, in which the read and the write of
  the `append` of one goroutine may be separated by accesses of other goroutines.  A
  read of the variable returns the value last written to it.
* Everything a goroutine does towards the outside (log lines, client calls, channel
  sends) is recorded in a list of `Effect`s; the effects of one per-service goroutine
  and of the sampling goroutines it starts are recorded together, where it starts.
* A send on `statsChannel` is recorded when the sampler reaches it, and the receiver
  is a function of the messages delivered to it, in order; the capacity of the
  channel and the blocking of a sender are not part of the embedding.
-/

namespace Autoscaler

/-! ## `internal/config/config.go` -/

/-- The record `config.ServiceThreshold`. -/
structure ServiceThreshold where
  Percent : ℚ
  Metric : String
  ScaleUpDuration : String
  ScaleDownDuration : String
  deriving DecidableEq

/-- The record `config.ConfigServiceThreshold`. -/
structure ConfigServiceThreshold where
  Cpu : ServiceThreshold
  Memory : ServiceThreshold
  deriving DecidableEq

/-- The record `config.ConfigService`. -/
structure ConfigService where
  Name : String
  StackName : String
  Enabled : Bool
  MaxReplicas : Nat
  Thresholds : ConfigServiceThreshold
  deriving DecidableEq

/-- The record `config.Config`; `Interval` is a `time.Duration`, in nanoseconds. -/
structure Config where
  Interval : Int
  Services : List ConfigService
  deriving DecidableEq

/-! ## The fields of the Docker API types that the program reads -/

/-- The part of `types.CPUUsage` read by the program. -/
structure CPUUsage where
  TotalUsage : Nat
  deriving DecidableEq

/-- The part of `types.CPUStats` read by the program. -/
structure CPUStats where
  CPUUsage : Autoscaler.CPUUsage
  SystemUsage : Nat
  OnlineCPUs : Nat
  deriving DecidableEq

/-- The part of `types.Stats` read by the program. -/
structure Stats where
  CPUStats : Autoscaler.CPUStats
  PreCPUStats : Autoscaler.CPUStats
  deriving DecidableEq

/-- The zero value of `types.CPUStats`. -/
def zeroCPUStats : CPUStats := ⟨⟨0⟩, 0, 0⟩

/-! ## `float64` arithmetic -/

/-- Round a rational to the nearest integer, a tie going to the even neighbour. -/
def roundHalfEven (x : ℚ) : ℤ :=
  if Int.fract x < 1 / 2 then ⌊x⌋
  else if 1 / 2 < Int.fract x then ⌊x⌋ + 1
  else if ⌊x⌋ % 2 = 0 then ⌊x⌋
  else ⌊x⌋ + 1

/-- The `float64` nearest to a rational: `x` rounded to 53 significant bits, to nearest,
ties to even.  `Int.log 2 |x|` is the exponent `e` with `2^e ≤ |x| < 2^(e+1)`. -/
def float64 (x : ℚ) : ℚ :=
  if x = 0 then 0
  else (roundHalfEven (x / 2 ^ (Int.log 2 |x| - 52)) : ℚ) * 2 ^ (Int.log 2 |x| - 52)

/-! ## `calculateCPUPercent` -/

/-- The function `calculateCPUPercent(prev, v)` of the source. -/
def calculateCPUPercent (prev : CPUStats) (v : Stats) : ℚ :=
  let cpuPercent : ℚ := 0
  let cpuDelta : ℚ :=
    float64 (float64 (v.CPUStats.CPUUsage.TotalUsage : ℚ) - float64 (prev.CPUUsage.TotalUsage : ℚ))
  let systemDelta : ℚ :=
    float64 (float64 (v.CPUStats.SystemUsage : ℚ) - float64 (prev.SystemUsage : ℚ))
  if systemDelta > 0 ∧ cpuDelta > 0 then
    float64 (float64 (float64 (cpuDelta / systemDelta) * float64 (v.CPUStats.OnlineCPUs : ℚ)) * 100)
  else
    cpuPercent

/-- The utilization formula in the words of the specification: zero when either
delta is non-positive, and otherwise
`(currentUsage - previousUsage) / (currentReference - previousReference) * units * 100`. -/
def specPercent (previousUsage currentUsage previousReference currentReference units : Nat) : ℚ :=
  if currentUsage ≤ previousUsage ∨ currentReference ≤ previousReference then 0
  else
    ((currentUsage : ℚ) - (previousUsage : ℚ)) /
      ((currentReference : ℚ) - (previousReference : ℚ)) * (units : ℚ) * 100

/-- A snapshot pair built from raw counters: `prev` and `cur` usage, `prev` and `cur`
system reference, and the number of online CPUs. -/
def mkStats (prevUsage curUsage prevSystem curSystem cpus : Nat) : Stats :=
  { CPUStats := ⟨⟨curUsage⟩, curSystem, cpus⟩, PreCPUStats := ⟨⟨prevUsage⟩, prevSystem, 0⟩ }

/-! ## The Docker client, as far as `main` uses it -/

/-- A filter argument, `filters.KeyValuePair`. -/
structure KeyValuePair where
  Key : String
  Value : String
  deriving DecidableEq

/-- The part of `swarm.ServiceSpec` read by the program. -/
structure ServiceSpec where
  Name : String
  deriving DecidableEq

/-- The part of `swarm.Service` read by the program. -/
structure Service where
  Spec : ServiceSpec
  deriving DecidableEq

/-- The part of `types.Container` read by the program. -/
structure Container where
  ID : String
  deriving DecidableEq

/-- A stats response body: either it decodes to a `types.Stats` value, or
`json.NewDecoder(body).Decode` fails with the given error. -/
abbrev ReadCloser := Except String Stats

/-- The three client calls of `main`, as functions from the arguments the program
passes to the `(result, err)` pair that the daemon answers with. -/
structure DockerClient where
  ServiceList : Bool → List KeyValuePair → Except String (List Service)
  ContainerList : List KeyValuePair → Except String (List Container)
  ContainerStats : String → Bool → Except String ReadCloser

/-- The message type of `statsChannel`. -/
structure StatsChanInput where
  ServiceName : String
  StatsIo : ReadCloser

/-- The log lines of the program, one constructor per `log.Print`/`log.Printf` call,
with the formatted arguments kept as values (`none` is a nil error). -/
inductive LogLine where
  | starting
  | monitoring (services : Nat)
  | metricsInspect (d : Int)
  | ignoringErroredService (swarmName : String)
  | errorGettingServices (err : Option String)
  | couldNotFindContainers (serviceName : String) (err : Option String)
  | errorGettingContainerStats (err : String)
  | failedToParse (serviceName : String) (err : String)
  | receivedCPUStats (serviceName : String) (percent : ℚ)
  deriving DecidableEq

/-- What the sampling side of the program does towards the outside. -/
inductive Effect where
  | log (line : LogLine)
  | serviceList (status : Bool) (filters : List KeyValuePair)
  | containerList (filters : List KeyValuePair)
  | containerStats (containerID : String) (stream : Bool)
  | send (msg : StatsChanInput)

/-- An effect is a client request for the list of services (discovery). -/
def Effect.isDiscoveryRequest : Effect → Bool
  | .serviceList _ _ => true
  | _ => false

/-- An effect is a client request for a container list or for container stats. -/
def Effect.isStatsRequest : Effect → Bool
  | .containerList _ => true
  | .containerStats _ _ => true
  | _ => false

/-- An effect is a discovery request whose filters ask for the service `name`. -/
def Effect.isDiscoveryOf (name : String) : Effect → Bool
  | .serviceList _ filters => filters.contains ⟨"name", name⟩
  | _ => false

/-- The messages sent on `statsChannel`, in order. -/
def sentMessages : List Effect → List StatsChanInput
  | [] => []
  | .send msg :: rest => msg :: sentMessages rest
  | _ :: rest => sentMessages rest

/-- The container IDs for which stats were requested, in order. -/
def statsRequests : List Effect → List String
  | [] => []
  | .containerStats containerID _ :: rest => containerID :: statsRequests rest
  | _ :: rest => statsRequests rest

/-! ## The stats receiver goroutine -/

/-- The receiver: `for msg := range statsChannel`, on the messages delivered in order.
A decode failure logs and `return`s from the goroutine. -/
def statsReceiver : List StatsChanInput → List LogLine
  | [] => []
  | msg :: rest =>
    match msg.StatsIo with
    | .error err => [LogLine.failedToParse msg.ServiceName err]
    | .ok statsResult =>
      LogLine.receivedCPUStats msg.ServiceName
          (calculateCPUPercent statsResult.PreCPUStats statsResult) ::
        statsReceiver rest

/-! ## One evaluation of one configured service -/

/-- The lookup name `swarmName` and the filter list `defaultFilters` that the
per-service goroutine computes from its configuration. -/
def swarmNameAndFilters (configSvc : ConfigService) : String × List KeyValuePair :=
  let defaultFilters : List KeyValuePair := []
  let swarmName := configSvc.Name
  let (swarmName, defaultFilters) :=
    if configSvc.StackName ≠ "" then
      (configSvc.StackName ++ "_" ++ swarmName,
        defaultFilters ++
          [⟨"label", "com.docker.stack.namespace=" ++ configSvc.StackName⟩])
    else
      (swarmName, defaultFilters)
  (swarmName, defaultFilters ++ [⟨"name", swarmName⟩])

/-- The lookup name of a configured service. -/
def swarmName (configSvc : ConfigService) : String := (swarmNameAndFilters configSvc).1

/-- The discovery filters of a configured service. -/
def defaultFilters (configSvc : ConfigService) : List KeyValuePair :=
  (swarmNameAndFilters configSvc).2

/-- The loop `for _, container := range dc`: request the stats of each container and
send the body on `statsChannel`; an error logs and `return`s. -/
def sampleContainers (dockerClient : DockerClient) (serviceName : String) :
    List Container → List Effect
  | [] => []
  | container :: rest =>
    Effect.containerStats container.ID false ::
      match dockerClient.ContainerStats container.ID false with
      | .error err => [Effect.log (LogLine.errorGettingContainerStats err)]
      | .ok body =>
        Effect.send ⟨serviceName, body⟩ :: sampleContainers dockerClient serviceName rest

/-- The goroutine started for one discovered `swarm.Service`. -/
def sampleService (dockerClient : DockerClient) (service : Service) : List Effect :=
  let flt : List KeyValuePair :=
    [⟨"label", "com.docker.swarm.service.name=" ++ service.Spec.Name⟩]
  Effect.containerList flt ::
    match dockerClient.ContainerList flt with
    | .error err => [Effect.log (LogLine.couldNotFindContainers service.Spec.Name (some err))]
    | .ok dc =>
      if dc.length = 0 then
        [Effect.log (LogLine.couldNotFindContainers service.Spec.Name none)]
      else if dc.length = 0 then
        []
      else
        sampleContainers dockerClient service.Spec.Name dc

/-- The goroutine started for one configured service, on the current value of
`ignoredServicesIds`: the new value of the list and the effects. -/
def evalService (dockerClient : DockerClient) (ignoredServicesIds : List String)
    (configSvc : ConfigService) : List String × List Effect :=
  let (swarmName, defaultFilters) := swarmNameAndFilters configSvc
  if ignoredServicesIds.contains swarmName then
    (ignoredServicesIds, [Effect.log (LogLine.ignoringErroredService swarmName)])
  else
    match dockerClient.ServiceList true defaultFilters with
    | .error err =>
      (ignoredServicesIds ++ [swarmName],
        [Effect.serviceList true defaultFilters,
          Effect.log (LogLine.errorGettingServices (some err))])
    | .ok dockerServices =>
      if dockerServices.length = 0 then
        (ignoredServicesIds ++ [swarmName],
          [Effect.serviceList true defaultFilters,
            Effect.log (LogLine.errorGettingServices none)])
      else
        (ignoredServicesIds,
          Effect.serviceList true defaultFilters ::
            (dockerServices.map (sampleService dockerClient)).flatten)


/-! ## The goroutines of a run and the shared `ignoredServicesIds` -/

/-- Whether the discovery request of a service fails or finds no service: the
condition `err != nil || len(dockerServices) == 0` of the source. -/
def discoveryFails (dockerClient : DockerClient) (configSvc : ConfigService) : Bool :=
  match dockerClient.ServiceList true (defaultFilters configSvc) with
  | .error _ => true
  | .ok dockerServices => dockerServices.length = 0

/-- Where a started per-service goroutine stands with respect to the statement
`ignoredServicesIds = append(ignoredServicesIds, swarmName)`: not (or no longer) about
to execute it, about to execute it, or having read the variable and not yet assigned
the appended value. -/
inductive Appender where
  | idle
  | waiting (swarmName : String)
  | holding (swarmName : String) (read : List String)

/-- The shared variable `ignoredServicesIds`, the number of per-service goroutines
started so far, and the standing of each of them. -/
structure World where
  ignoredServicesIds : List String
  started : Nat
  appenders : Nat → Appender

/-- The state at the start of `main`: `var ignoredServicesIds []string`. -/
def World.initial : World := ⟨[], 0, fun _ => Appender.idle⟩

/-- No goroutine is between the read and the write of its `append`. -/
def World.noneHolding (w : World) : Prop :=
  ∀ g swarmName read, w.appenders g ≠ Appender.holding swarmName read

/-- The events of a run, in the order in which they touch `ignoredServicesIds`.
`tick d` is the main loop receiving from the ticker.  `start` is a per-service
goroutine, numbered by the order of the starts, reading the variable for
`slices.Contains` and running up to the `append`: the daemon answers it as
`dockerClient`.  `appendRead g` and `appendWrite g` are goroutine `g` reading the
variable for `append(ignoredServicesIds, swarmName)` and assigning the result. -/
inductive Event where
  | tick (d : Int)
  | start (dockerClient : DockerClient) (configSvc : ConfigService)
  | appendRead (goroutine : Nat)
  | appendWrite (goroutine : Nat)

/-- One event of a run: the new state and the effects. -/
def step (w : World) : Event → World × List Effect
  | .tick d => (w, [Effect.log (LogLine.metricsInspect d)])
  | .start dockerClient configSvc =>
    ({ w with
        started := w.started + 1
        appenders := Function.update w.appenders w.started
          (if !w.ignoredServicesIds.contains (swarmName configSvc) &&
              discoveryFails dockerClient configSvc then
            Appender.waiting (swarmName configSvc)
          else Appender.idle) },
      (evalService dockerClient w.ignoredServicesIds configSvc).2)
  | .appendRead g =>
    match w.appenders g with
    | .waiting swarmName =>
      ({ w with
          appenders := Function.update w.appenders g
            (Appender.holding swarmName w.ignoredServicesIds) }, [])
    | _ => (w, [])
  | .appendWrite g =>
    match w.appenders g with
    | .holding swarmName read =>
      ({ w with
          ignoredServicesIds := read ++ [swarmName]
          appenders := Function.update w.appenders g Appender.idle }, [])
    | _ => (w, [])

/-- A run: the events executed one after another. -/
def run : List Event → World → World × List Effect
  | [], w => (w, [])
  | event :: rest, w =>
    let r := step w event
    let rs := run rest r.1
    (rs.1, r.2 ++ rs.2)

/-- Every `append` of the run is executed without another event between its read and
its write. -/
def atomicAppends : List Event → Bool
  | [] => true
  | .appendRead g :: .appendWrite g' :: rest => g == g' && atomicAppends rest
  | .appendRead _ :: _ => false
  | .appendWrite _ :: _ => false
  | _ :: rest => atomicAppends rest

/-- The goroutines of one tick run one after another in the order of the loop
`for _, svc := range appConfig.Services`, each to its end; `g` is the number of the
first of them. -/
def servicesInOrder (dockerClient : DockerClient) : List ConfigService → Nat → List Event
  | [], _ => []
  | svc :: rest, g =>
    Event.start dockerClient svc :: Event.appendRead g :: Event.appendWrite g ::
      servicesInOrder dockerClient rest (g + 1)

/-- The run in which every goroutine finishes before the next one starts, over a
finite sequence of ticks, each with its time and the daemon's answers during it. -/
def launchOrder (cfg : Config) : List (Int × DockerClient) → Nat → List Event
  | [], _ => []
  | (d, dockerClient) :: rest, g =>
    Event.tick d ::
      (servicesInOrder dockerClient cfg.Services g ++
        launchOrder cfg rest (g + cfg.Services.length))

/-- The first service of `appConfig`; the `Memory` threshold is left at its zero value. -/
def traefik : ConfigService :=
  { Name := "traefik", Enabled := true, StackName := "olc", MaxReplicas := 3
    Thresholds :=
      { Cpu := ⟨1 / 5, "average", "10s", "10s"⟩
        Memory := ⟨0, "", "", ""⟩ } }

/-- The second service of `appConfig`. -/
def grafana : ConfigService :=
  { Name := "grafana", Enabled := true, StackName := "olc", MaxReplicas := 2
    Thresholds :=
      { Cpu := ⟨1 / 5, "average", "10s", "10s"⟩
        Memory := ⟨0, "", "", ""⟩ } }

/-- The configuration `appConfig` of the source: a 5s interval and two services. -/
def appConfig : Config :=
  { Interval := 5 * 1000000000, Services := [traefik, grafana] }

/-! ## Concrete configurations and daemons used in the examples -/

/-- A service configured without a stack name. -/
def standalone : ConfigService :=
  { Name := "web", Enabled := true, StackName := "", MaxReplicas := 2
    Thresholds :=
      { Cpu := ⟨1 / 5, "average", "10s", "10s"⟩
        Memory := ⟨0, "", "", ""⟩ } }

/-- A daemon on which every call fails. -/
def downClient : DockerClient :=
  { ServiceList := fun _ _ => .error "down"
    ContainerList := fun _ => .error "down"
    ContainerStats := fun _ _ => .error "down" }

/-- A daemon that finds one service `olc_traefik` with the given containers, and
answers a stats request as `stats` says. -/
def traefikClient (containers : List Container) (stats : String → Except String ReadCloser) :
    DockerClient :=
  { ServiceList := fun _ _ => .ok [⟨⟨"olc_traefik"⟩⟩]
    ContainerList := fun _ => .ok containers
    ContainerStats := fun containerID _ => stats containerID }

/-- The service `traefik` with its `Enabled` flag off. -/
def disabledTraefik : ConfigService := { traefik with Enabled := false }

/-- A configuration with the single service `traefik` and the 5s interval. -/
def traefikConfig : Config := { Interval := 5 * 1000000000, Services := [traefik] }

/-- The configuration `traefikConfig` with `MaxReplicas` lowered to 1, the number of
containers that the example daemon reports for the service. -/
def cappedTraefikConfig : Config :=
  { Interval := 5 * 1000000000, Services := [{ traefik with MaxReplicas := 1 }] }

/-- A body that decodes to a sample of `percent` per cent on one CPU. -/
def sampleBody (percent : Nat) : ReadCloser := .ok (mkStats 0 percent 0 100 1)

/-- Three ticks, 5s apart, on which the one container of `olc_traefik` reports
25%, 22% and 21%. -/
def breachTicks : List (Int × DockerClient) :=
  [ (0, traefikClient [⟨"c1"⟩] (fun _ => .ok (sampleBody 25))),
    (5000000000, traefikClient [⟨"c1"⟩] (fun _ => .ok (sampleBody 22))),
    (10000000000, traefikClient [⟨"c1"⟩] (fun _ => .ok (sampleBody 21))) ]

/-- Stats answers under which the fetch for container `c2` fails and every other
fetch succeeds. -/
def secondFails (containerID : String) : Except String ReadCloser :=
  if containerID = "c2" then .error "no such container" else .ok (sampleBody 25)


end Autoscaler

namespace Autoscaler

/-! ## Rounding -/

theorem roundHalfEven_intCast (m : ℤ) : roundHalfEven (m : ℚ) = m := by
  simp [roundHalfEven]

theorem floor_le_roundHalfEven (x : ℚ) : ⌊x⌋ ≤ roundHalfEven x := by
  unfold roundHalfEven
  split_ifs <;> omega

theorem roundHalfEven_le_floor_add_one (x : ℚ) : roundHalfEven x ≤ ⌊x⌋ + 1 := by
  unfold roundHalfEven
  split_ifs <;> omega

theorem roundHalfEven_mono {x y : ℚ} (h : x ≤ y) : roundHalfEven x ≤ roundHalfEven y := by
  have hf : ⌊x⌋ ≤ ⌊y⌋ := Int.floor_mono h
  rcases hf.lt_or_eq with hlt | heq
  · calc roundHalfEven x ≤ ⌊x⌋ + 1 := roundHalfEven_le_floor_add_one x
      _ ≤ ⌊y⌋ := hlt
      _ ≤ roundHalfEven y := floor_le_roundHalfEven y
  · have hfr : Int.fract x ≤ Int.fract y := by
      rw [← Int.self_sub_floor, ← Int.self_sub_floor, heq]
      linarith
    unfold roundHalfEven
    rw [heq]
    split_ifs <;> first | omega | linarith

theorem abs_roundHalfEven_sub (x : ℚ) : |(roundHalfEven x : ℚ) - x| ≤ 1 / 2 := by
  have h0 := Int.fract_nonneg x
  have h1 := Int.fract_lt_one x
  have hx := Int.floor_add_fract x
  rw [abs_le]
  unfold roundHalfEven
  split_ifs <;> push_cast <;> constructor <;> linarith

theorem roundHalfEven_eq_of_abs_lt (x : ℚ) (m : ℤ) (h : |x - (m : ℚ)| < 1 / 2) :
    roundHalfEven x = m := by
  have h1 := abs_roundHalfEven_sub x
  have h2 : |((roundHalfEven x - m : ℤ) : ℚ)| < 1 := by
    push_cast
    have e : (roundHalfEven x : ℚ) - m = ((roundHalfEven x : ℚ) - x) + (x - m) := by ring
    rw [e]
    calc |((roundHalfEven x : ℚ) - x) + (x - m)|
        ≤ |(roundHalfEven x : ℚ) - x| + |x - m| := abs_add _ _
      _ < 1 / 2 + 1 / 2 := add_lt_add_of_le_of_lt h1 h
      _ = 1 := by norm_num
  have h3 : |roundHalfEven x - m| < 1 := by exact_mod_cast h2
  have h4 := Int.abs_lt_one_iff.mp h3
  omega

theorem roundHalfEven_tie (m : ℤ) :
    roundHalfEven ((m : ℚ) + 1 / 2) = if m % 2 = 0 then m else m + 1 := by
  have hf : ⌊(m : ℚ) + 1 / 2⌋ = m := by
    rw [Int.floor_eq_iff]
    constructor <;> linarith
  have hr : Int.fract ((m : ℚ) + 1 / 2) = 1 / 2 := by
    rw [← Int.self_sub_floor, hf]
    ring
  unfold roundHalfEven
  rw [hr, hf, if_neg (lt_irrefl _), if_neg (lt_irrefl _)]

/-! ### `float64` -/

theorem float64_zero : float64 0 = 0 := by simp [float64]

theorem log_eq_of_binade {x : ℚ} {e : ℤ} (h1 : (2 : ℚ) ^ e ≤ x) (h2 : x < (2 : ℚ) ^ (e + 1)) :
    Int.log 2 x = e := by
  have hx : 0 < x := lt_of_lt_of_le (by positivity) h1
  have a : e ≤ Int.log 2 x := (Int.zpow_le_iff_le_log (by norm_num) hx).mp (by exact_mod_cast h1)
  have b : Int.log 2 x < e + 1 := (Int.lt_zpow_iff_log_lt (by norm_num) hx).mp (by exact_mod_cast h2)
  omega

theorem binade_log {x : ℚ} (hx : 0 < x) :
    (2 : ℚ) ^ Int.log 2 x ≤ x ∧ x < (2 : ℚ) ^ (Int.log 2 x + 1) := by
  have a := Int.zpow_log_le_self (b := 2) (r := x) (by norm_num) hx
  have b := Int.lt_zpow_succ_log_self (b := 2) (by norm_num) x
  exact ⟨by exact_mod_cast a, by exact_mod_cast b⟩

/-- The value of `float64` on a positive rational of the binade `[2^e, 2^(e+1))`: the
multiple of `2^(e-52)` nearest to it, ties to even. -/
theorem float64_of_binade {x : ℚ} {e : ℤ} (h1 : (2 : ℚ) ^ e ≤ x) (h2 : x < (2 : ℚ) ^ (e + 1)) :
    float64 x = (roundHalfEven (x / 2 ^ (e - 52)) : ℚ) * 2 ^ (e - 52) := by
  have hx : 0 < x := lt_of_lt_of_le (by positivity) h1
  unfold float64
  rw [if_neg hx.ne', abs_of_pos hx, log_eq_of_binade h1 h2]

theorem pow_binade (e : ℤ) :
    (2 : ℚ) ^ e = 2 ^ (52 : ℕ) * 2 ^ (e - 52) ∧ (2 : ℚ) ^ (e + 1) = 2 ^ (53 : ℕ) * 2 ^ (e - 52) := by
  constructor
  · rw [← zpow_natCast, ← zpow_add₀ (by norm_num : (2 : ℚ) ≠ 0)]
    congr 1
    push_cast
    ring
  · rw [← zpow_natCast, ← zpow_add₀ (by norm_num : (2 : ℚ) ≠ 0)]
    congr 1
    push_cast
    ring

theorem float64_bracket {x : ℚ} {e : ℤ} (h1 : (2 : ℚ) ^ e ≤ x) (h2 : x < (2 : ℚ) ^ (e + 1)) :
    (2 : ℚ) ^ e ≤ float64 x ∧ float64 x ≤ (2 : ℚ) ^ (e + 1) := by
  have hu : (0 : ℚ) < 2 ^ (e - 52) := by positivity
  obtain ⟨p1, p2⟩ := pow_binade e
  rw [float64_of_binade h1 h2]
  have c1 : (((2 : ℤ) ^ (52 : ℕ) : ℤ) : ℚ) = (2 : ℚ) ^ (52 : ℕ) := by
    rw [Int.cast_pow, Int.cast_ofNat]
  have c2 : (((2 : ℤ) ^ (53 : ℕ) : ℤ) : ℚ) = (2 : ℚ) ^ (53 : ℕ) := by
    rw [Int.cast_pow, Int.cast_ofNat]
  have t1 : (((2 : ℤ) ^ (52 : ℕ) : ℤ) : ℚ) ≤ x / 2 ^ (e - 52) := by
    rw [c1, le_div_iff₀ hu, ← p1]
    exact h1
  have t2 : x / 2 ^ (e - 52) ≤ (((2 : ℤ) ^ (53 : ℕ) : ℤ) : ℚ) := by
    rw [c2, div_le_iff₀ hu, ← p2]
    exact h2.le
  have r1 := roundHalfEven_mono t1
  have r2 := roundHalfEven_mono t2
  rw [roundHalfEven_intCast] at r1 r2
  have q1 : (2 : ℚ) ^ (52 : ℕ) ≤ (roundHalfEven (x / 2 ^ (e - 52)) : ℚ) := by
    rw [← c1]
    exact_mod_cast r1
  have q2 : (roundHalfEven (x / 2 ^ (e - 52)) : ℚ) ≤ (2 : ℚ) ^ (53 : ℕ) := by
    rw [← c2]
    exact_mod_cast r2
  rw [p1, p2]
  exact ⟨mul_le_mul_of_nonneg_right q1 hu.le, mul_le_mul_of_nonneg_right q2 hu.le⟩

theorem float64_pos {x : ℚ} (hx : 0 < x) : 0 < float64 x := by
  obtain ⟨h1, h2⟩ := binade_log hx
  exact lt_of_lt_of_le (by positivity) (float64_bracket h1 h2).1

theorem float64_nonneg {x : ℚ} (hx : 0 ≤ x) : 0 ≤ float64 x := by
  rcases hx.eq_or_lt with h | h
  · rw [← h, float64_zero]
  · exact (float64_pos h).le

theorem float64_nonpos {x : ℚ} (hx : x ≤ 0) : float64 x ≤ 0 := by
  rcases hx.eq_or_lt with h | h
  · rw [h, float64_zero]
  · unfold float64
    rw [if_neg h.ne]
    have hu : (0 : ℚ) < 2 ^ (Int.log 2 |x| - 52) := by positivity
    have t : x / 2 ^ (Int.log 2 |x| - 52) ≤ ((0 : ℤ) : ℚ) := by
      rw [div_le_iff₀ hu]
      simpa using h.le
    have r := roundHalfEven_mono t
    rw [roundHalfEven_intCast] at r
    have q : (roundHalfEven (x / 2 ^ (Int.log 2 |x| - 52)) : ℚ) ≤ 0 := by exact_mod_cast r
    exact mul_nonpos_of_nonpos_of_nonneg q hu.le

theorem float64_eq_zero_iff {x : ℚ} (hx : 0 ≤ x) : float64 x = 0 ↔ x = 0 := by
  constructor
  · intro h
    by_contra hne
    have := float64_pos (lt_of_le_of_ne hx (Ne.symm hne))
    linarith
  · intro h
    rw [h, float64_zero]

theorem float64_mono {x y : ℚ} (hx : 0 ≤ x) (h : x ≤ y) : float64 x ≤ float64 y := by
  rcases hx.eq_or_lt with h0 | hpos
  · rw [← h0, float64_zero]
    exact float64_nonneg (hx.trans h)
  · have hy : 0 < y := lt_of_lt_of_le hpos h
    obtain ⟨x1, x2⟩ := binade_log hpos
    obtain ⟨y1, y2⟩ := binade_log hy
    have hlog : Int.log 2 x ≤ Int.log 2 y := Int.log_mono_right hpos h
    rcases hlog.lt_or_eq with hlt | heq
    · calc float64 x ≤ (2 : ℚ) ^ (Int.log 2 x + 1) := (float64_bracket x1 x2).2
        _ ≤ (2 : ℚ) ^ Int.log 2 y := zpow_le_zpow_right₀ (by norm_num) hlt
        _ ≤ float64 y := (float64_bracket y1 y2).1
    · rw [float64_of_binade x1 x2, float64_of_binade y1 y2, heq]
      have hu : (0 : ℚ) < 2 ^ (Int.log 2 y - 52) := by positivity
      have t : x / 2 ^ (Int.log 2 y - 52) ≤ y / 2 ^ (Int.log 2 y - 52) :=
        div_le_div_of_nonneg_right h hu.le
      have r := roundHalfEven_mono t
      have q : (roundHalfEven (x / 2 ^ (Int.log 2 y - 52)) : ℚ) ≤
          (roundHalfEven (y / 2 ^ (Int.log 2 y - 52)) : ℚ) := by exact_mod_cast r
      exact mul_le_mul_of_nonneg_right q hu.le

/-- A dyadic rational `m * 2^k` with `m < 2^53` is a `float64`. -/
theorem float64_dyadic (m : ℕ) (k : ℤ) (hm : m < 2 ^ 53) :
    float64 ((m : ℚ) * 2 ^ k) = (m : ℚ) * 2 ^ k := by
  rcases Nat.eq_zero_or_pos m with h0 | hpos
  · subst h0
    simp [float64_zero]
  · have hk : (0 : ℚ) < 2 ^ k := by positivity
    have hx : (0 : ℚ) < (m : ℚ) * 2 ^ k := mul_pos (by exact_mod_cast hpos) hk
    obtain ⟨h1, h2⟩ := binade_log hx
    have hlt : (2 : ℚ) ^ Int.log 2 ((m : ℚ) * 2 ^ k) < 2 ^ (53 + k) := by
      calc (2 : ℚ) ^ Int.log 2 ((m : ℚ) * 2 ^ k) ≤ (m : ℚ) * 2 ^ k := h1
        _ < 2 ^ (53 : ℕ) * 2 ^ k := by
            apply mul_lt_mul_of_pos_right _ hk
            exact_mod_cast hm
        _ = 2 ^ (53 + k) := by
            rw [← zpow_natCast, ← zpow_add₀ (by norm_num : (2 : ℚ) ≠ 0)]
            rfl
    have he : Int.log 2 ((m : ℚ) * 2 ^ k) < 53 + k :=
      (zpow_lt_zpow_iff_right₀ (by norm_num : (1 : ℚ) < 2)).mp hlt
    rw [float64_of_binade h1 h2]
    generalize Int.log 2 ((m : ℚ) * 2 ^ k) = e at he
    obtain ⟨j, hj⟩ : ∃ j : ℕ, k = e - 52 + (j : ℤ) := ⟨(k - (e - 52)).toNat, by omega⟩
    have hu : (0 : ℚ) < 2 ^ (e - 52) := by positivity
    have hk2 : (2 : ℚ) ^ k = 2 ^ (e - 52) * 2 ^ j := by
      rw [hj, zpow_add₀ (by norm_num : (2 : ℚ) ≠ 0), zpow_natCast]
    have ht : (m : ℚ) * 2 ^ k / 2 ^ (e - 52) = (((m : ℤ) * 2 ^ j : ℤ) : ℚ) := by
      rw [hk2]
      push_cast
      field_simp
      ring
    rw [ht, roundHalfEven_intCast, hk2]
    push_cast
    ring

theorem float64_natCast (n : ℕ) (hn : n < 2 ^ 53) : float64 (n : ℚ) = (n : ℚ) := by
  have h := float64_dyadic n 0 hn
  simpa using h

/-- The relative error of one rounding is at most `2^-53`. -/
theorem abs_float64_sub_le {x : ℚ} (hx : 0 ≤ x) : |float64 x - x| ≤ x / 2 ^ (53 : ℕ) := by
  rcases hx.eq_or_lt with h0 | hpos
  · rw [← h0, float64_zero]
    simp
  · obtain ⟨h1, h2⟩ := binade_log hpos
    rw [float64_of_binade h1 h2]
    generalize Int.log 2 x = e at h1 h2
    obtain ⟨p1, _⟩ := pow_binade e
    have hu : (0 : ℚ) < 2 ^ (e - 52) := by positivity
    have hr := abs_roundHalfEven_sub (x / 2 ^ (e - 52))
    have e1 : (roundHalfEven (x / 2 ^ (e - 52)) : ℚ) * 2 ^ (e - 52) - x =
        ((roundHalfEven (x / 2 ^ (e - 52)) : ℚ) - x / 2 ^ (e - 52)) * 2 ^ (e - 52) := by
      field_simp
    rw [e1, abs_mul, abs_of_pos hu]
    have hle : (2 : ℚ) ^ (52 : ℕ) * 2 ^ (e - 52) ≤ x := by
      rw [← p1]
      exact h1
    calc |(roundHalfEven (x / 2 ^ (e - 52)) : ℚ) - x / 2 ^ (e - 52)| * 2 ^ (e - 52)
        ≤ 1 / 2 * 2 ^ (e - 52) := mul_le_mul_of_nonneg_right hr hu.le
      _ = (2 : ℚ) ^ (52 : ℕ) * 2 ^ (e - 52) / 2 ^ (53 : ℕ) := by
          field_simp
          ring
      _ ≤ x / 2 ^ (53 : ℕ) := div_le_div_of_nonneg_right hle (by positivity)

theorem float64_between {x : ℚ} (hx : 0 ≤ x) :
    (1 - 1 / 2 ^ (53 : ℕ)) * x ≤ float64 x ∧ float64 x ≤ (1 + 1 / 2 ^ (53 : ℕ)) * x := by
  have h := abs_float64_sub_le hx
  rw [abs_le] at h
  constructor <;> linarith [h.1, h.2]

/-- Evaluation of `float64` at a rational that is not a tie: `e` is its binade and `m`
the integer within one half of its quotient by `2^(e-52)`. -/
theorem float64_eval {x : ℚ} (e m : ℤ) (h1 : (2 : ℚ) ^ e ≤ x) (h2 : x < (2 : ℚ) ^ (e + 1))
    (hm : |x / 2 ^ (e - 52) - (m : ℚ)| < 1 / 2) :
    float64 x = (m : ℚ) * 2 ^ (e - 52) := by
  rw [float64_of_binade h1 h2, roundHalfEven_eq_of_abs_lt _ m hm]

/-- A tie goes to the even significand: `2^53 + 1` lies midway between the `float64`s
`2^53` and `2^53 + 2` and converts to `2^53`; `2^53 + 3` converts to `2^53 + 4`. -/
theorem float64_ties_to_even :
    float64 ((2 : ℚ) ^ (53 : ℕ) + 1) = 2 ^ (53 : ℕ) ∧
    float64 ((2 : ℚ) ^ (53 : ℕ) + 3) = 2 ^ (53 : ℕ) + 4 := by
  constructor
  · rw [float64_of_binade (e := 53) (by norm_num) (by norm_num)]
    have e : ((2 : ℚ) ^ (53 : ℕ) + 1) / 2 ^ ((53 : ℤ) - 52) = ((2 ^ 52 : ℤ) : ℚ) + 1 / 2 := by
      norm_num
    rw [e, roundHalfEven_tie]
    norm_num
  · rw [float64_of_binade (e := 53) (by norm_num) (by norm_num)]
    have e : ((2 : ℚ) ^ (53 : ℕ) + 3) / 2 ^ ((53 : ℤ) - 52) = ((2 ^ 52 + 1 : ℤ) : ℚ) + 1 / 2 := by
      norm_num
    rw [e, roundHalfEven_tie]
    norm_num

/-! ## Theorems about `calculateCPUPercent` -/

/-- The `float64` difference of two converted counters is not positive when the first
counter is not above the second. -/
theorem float64_delta_nonpos (a b : ℕ) (h : a ≤ b) :
    float64 (float64 (a : ℚ) - float64 (b : ℚ)) ≤ 0 := by
  apply float64_nonpos
  have hq : (a : ℚ) ≤ (b : ℚ) := by exact_mod_cast h
  have := float64_mono (Nat.cast_nonneg a) hq
  linarith

/-- The `float64` difference of two converted counters below `2^53` is their exact
difference. -/
theorem float64_delta_exact (a b : ℕ) (ha : a < 2 ^ 53) (h : b < a) :
    float64 (float64 (a : ℚ) - float64 (b : ℚ)) = (a : ℚ) - (b : ℚ) := by
  rw [float64_natCast a ha, float64_natCast b (by omega)]
  have e : (a : ℚ) - (b : ℚ) = ((a - b : ℕ) : ℚ) := by
    rw [Nat.cast_sub h.le]
  rw [e]
  exact float64_natCast (a - b) (by omega)

theorem calculateCPUPercent_zero (prev : CPUStats) (v : Stats)
    (h : v.CPUStats.CPUUsage.TotalUsage ≤ prev.CPUUsage.TotalUsage ∨
      v.CPUStats.SystemUsage ≤ prev.SystemUsage) :
    calculateCPUPercent prev v = 0 := by
  simp only [calculateCPUPercent]
  rw [if_neg]
  rintro ⟨hs, hc⟩
  rcases h with h | h
  · have := float64_delta_nonpos _ _ h
    linarith
  · have := float64_delta_nonpos _ _ h
    linarith

theorem calculateCPUPercent_nonneg (prev : CPUStats) (v : Stats) :
    0 ≤ calculateCPUPercent prev v := by
  simp only [calculateCPUPercent]
  split_ifs with h
  · apply float64_nonneg
    apply mul_nonneg _ (by norm_num)
    apply float64_nonneg
    apply mul_nonneg
    · exact float64_nonneg (div_nonneg h.2.le h.1.le)
    · exact float64_nonneg (Nat.cast_nonneg _)
  · exact le_refl _

/-- The value of `calculateCPUPercent` when both counters strictly increase and stay
below `2^53`: three roundings applied to the exact deltas. -/
theorem calculateCPUPercent_pos (prev : CPUStats) (v : Stats)
    (hc : prev.CPUUsage.TotalUsage < v.CPUStats.CPUUsage.TotalUsage)
    (hs : prev.SystemUsage < v.CPUStats.SystemUsage)
    (hcb : v.CPUStats.CPUUsage.TotalUsage < 2 ^ 53) (hsb : v.CPUStats.SystemUsage < 2 ^ 53)
    (hn : v.CPUStats.OnlineCPUs < 2 ^ 32) :
    calculateCPUPercent prev v =
      float64
        (float64
            (float64
                (((v.CPUStats.CPUUsage.TotalUsage : ℚ) - (prev.CPUUsage.TotalUsage : ℚ)) /
                  ((v.CPUStats.SystemUsage : ℚ) - (prev.SystemUsage : ℚ))) *
              (v.CPUStats.OnlineCPUs : ℚ)) *
          100) := by
  have hc' : (0 : ℚ) < (v.CPUStats.CPUUsage.TotalUsage : ℚ) - (prev.CPUUsage.TotalUsage : ℚ) := by
    have : (prev.CPUUsage.TotalUsage : ℚ) < (v.CPUStats.CPUUsage.TotalUsage : ℚ) := by
      exact_mod_cast hc
    linarith
  have hs' : (0 : ℚ) < (v.CPUStats.SystemUsage : ℚ) - (prev.SystemUsage : ℚ) := by
    have : (prev.SystemUsage : ℚ) < (v.CPUStats.SystemUsage : ℚ) := by exact_mod_cast hs
    linarith
  simp only [calculateCPUPercent]
  rw [float64_delta_exact _ _ hcb hc, float64_delta_exact _ _ hsb hs,
    float64_natCast _ (lt_trans hn (by norm_num)), if_pos ⟨hs', hc'⟩]

theorem three_roundings {q n : ℚ} (hq : 0 ≤ q) (hn : 0 ≤ n) :
    (1 - 1 / 2 ^ (53 : ℕ)) ^ 3 * (q * n * 100) ≤ float64 (float64 (float64 q * n) * 100) ∧
    float64 (float64 (float64 q * n) * 100) ≤ (1 + 1 / 2 ^ (53 : ℕ)) ^ 3 * (q * n * 100) := by
  have hlo : (0 : ℚ) ≤ 1 - 1 / 2 ^ (53 : ℕ) := by norm_num
  have hhi : (0 : ℚ) ≤ 1 + 1 / 2 ^ (53 : ℕ) := by norm_num
  have r1 := float64_between hq
  have h1 : 0 ≤ float64 q := float64_nonneg hq
  have h1n : 0 ≤ float64 q * n := mul_nonneg h1 hn
  have r2 := float64_between h1n
  have h2 : 0 ≤ float64 (float64 q * n) := float64_nonneg h1n
  have h2c : 0 ≤ float64 (float64 q * n) * 100 := mul_nonneg h2 (by norm_num)
  have r3 := float64_between h2c
  generalize (1 - 1 / 2 ^ (53 : ℕ) : ℚ) = lo at *
  generalize (1 + 1 / 2 ^ (53 : ℕ) : ℚ) = hi at *
  constructor
  · calc lo ^ 3 * (q * n * 100) = lo * (lo * ((lo * q) * n) * 100) := by ring
      _ ≤ lo * (lo * (float64 q * n) * 100) := by
          gcongr
          exact r1.1
      _ ≤ lo * (float64 (float64 q * n) * 100) := by
          gcongr
          exact r2.1
      _ ≤ float64 (float64 (float64 q * n) * 100) := r3.1
  · calc float64 (float64 (float64 q * n) * 100) ≤ hi * (float64 (float64 q * n) * 100) := r3.2
      _ ≤ hi * (hi * (float64 q * n) * 100) := by
          gcongr
          exact r2.2
      _ ≤ hi * (hi * ((hi * q) * n) * 100) := by
          gcongr
          exact r1.2
      _ = hi ^ 3 * (q * n * 100) := by ring

/-- The value on a sample built by `mkStats 0 p 0 100 1`. -/
theorem calculateCPUPercent_sample (p : ℕ) (hp0 : 0 < p) (hp : p < 2 ^ 53) :
    calculateCPUPercent (mkStats 0 p 0 100 1).PreCPUStats (mkStats 0 p 0 100 1) =
      float64 (float64 (float64 ((p : ℚ) / 100) * 1) * 100) := by
  have h := calculateCPUPercent_pos (mkStats 0 p 0 100 1).PreCPUStats (mkStats 0 p 0 100 1)
    hp0 (by norm_num [mkStats]) hp (by norm_num [mkStats]) (by norm_num [mkStats])
  simpa [mkStats] using h

theorem sample_25 :
    calculateCPUPercent (mkStats 0 25 0 100 1).PreCPUStats (mkStats 0 25 0 100 1) = 25 := by
  rw [calculateCPUPercent_sample 25 (by decide) (by decide)]
  have a : float64 (((25 : ℕ) : ℚ) / 100) = 1 / 4 := by
    rw [float64_eval (-2) (2 ^ 52) (by norm_num) (by norm_num)
      (by rw [abs_lt]; constructor <;> norm_num)]
    norm_num
  have b : float64 ((1 : ℚ) / 4 * 1) = 1 / 4 := by
    rw [float64_eval (-2) (2 ^ 52) (by norm_num) (by norm_num)
      (by rw [abs_lt]; constructor <;> norm_num)]
    norm_num
  have c : float64 ((1 : ℚ) / 4 * 100) = 25 := by
    rw [float64_eval 4 (25 * 2 ^ 48) (by norm_num) (by norm_num)
      (by rw [abs_lt]; constructor <;> norm_num)]
    norm_num
  rw [a, b, c]

theorem sample_22 :
    calculateCPUPercent (mkStats 0 22 0 100 1).PreCPUStats (mkStats 0 22 0 100 1) = 22 := by
  rw [calculateCPUPercent_sample 22 (by decide) (by decide)]
  have a : float64 (((22 : ℕ) : ℚ) / 100) = 7926335344172073 / 2 ^ (55 : ℕ) := by
    rw [float64_eval (-3) 7926335344172073 (by norm_num) (by norm_num)
      (by rw [abs_lt]; constructor <;> norm_num)]
    norm_num
  have b : float64 ((7926335344172073 : ℚ) / 2 ^ (55 : ℕ) * 1) =
      7926335344172073 / 2 ^ (55 : ℕ) := by
    rw [float64_eval (-3) 7926335344172073 (by norm_num) (by norm_num)
      (by rw [abs_lt]; constructor <;> norm_num)]
    norm_num
  have c : float64 ((7926335344172073 : ℚ) / 2 ^ (55 : ℕ) * 100) = 22 := by
    rw [float64_eval 4 (22 * 2 ^ 48) (by norm_num) (by norm_num)
      (by rw [abs_lt]; constructor <;> norm_num)]
    norm_num
  rw [a, b, c]

theorem sample_21 :
    calculateCPUPercent (mkStats 0 21 0 100 1).PreCPUStats (mkStats 0 21 0 100 1) = 21 := by
  rw [calculateCPUPercent_sample 21 (by decide) (by decide)]
  have a : float64 (((21 : ℕ) : ℚ) / 100) = 7566047373982433 / 2 ^ (55 : ℕ) := by
    rw [float64_eval (-3) 7566047373982433 (by norm_num) (by norm_num)
      (by rw [abs_lt]; constructor <;> norm_num)]
    norm_num
  have b : float64 ((7566047373982433 : ℚ) / 2 ^ (55 : ℕ) * 1) =
      7566047373982433 / 2 ^ (55 : ℕ) := by
    rw [float64_eval (-3) 7566047373982433 (by norm_num) (by norm_num)
      (by rw [abs_lt]; constructor <;> norm_num)]
    norm_num
  have c : float64 ((7566047373982433 : ℚ) / 2 ^ (55 : ℕ) * 100) = 21 := by
    rw [float64_eval 4 (21 * 2 ^ 48) (by norm_num) (by norm_num)
      (by rw [abs_lt]; constructor <;> norm_num)]
    norm_num
  rw [a, b, c]

theorem sample_50 :
    calculateCPUPercent (mkStats 0 50 0 100 1).PreCPUStats (mkStats 0 50 0 100 1) = 50 := by
  rw [calculateCPUPercent_sample 50 (by decide) (by decide)]
  have a : float64 (((50 : ℕ) : ℚ) / 100) = 1 / 2 := by
    rw [float64_eval (-1) (2 ^ 52) (by norm_num) (by norm_num)
      (by rw [abs_lt]; constructor <;> norm_num)]
    norm_num
  have b : float64 ((1 : ℚ) / 2 * 1) = 1 / 2 := by
    rw [float64_eval (-1) (2 ^ 52) (by norm_num) (by norm_num)
      (by rw [abs_lt]; constructor <;> norm_num)]
    norm_num
  have c : float64 ((1 : ℚ) / 2 * 100) = 50 := by
    rw [float64_eval 5 (50 * 2 ^ 47) (by norm_num) (by norm_num)
      (by rw [abs_lt]; constructor <;> norm_num)]
    norm_num
  rw [a, b, c]

theorem sample_200 :
    calculateCPUPercent (mkStats 0 200 0 100 1).PreCPUStats (mkStats 0 200 0 100 1) = 200 := by
  rw [calculateCPUPercent_sample 200 (by decide) (by decide)]
  have a : float64 (((200 : ℕ) : ℚ) / 100) = 2 := by
    rw [float64_eval 1 (2 ^ 52) (by norm_num) (by norm_num)
      (by rw [abs_lt]; constructor <;> norm_num)]
    norm_num
  have b : float64 ((2 : ℚ) * 1) = 2 := by
    rw [float64_eval 1 (2 ^ 52) (by norm_num) (by norm_num)
      (by rw [abs_lt]; constructor <;> norm_num)]
    norm_num
  have c : float64 ((2 : ℚ) * 100) = 200 := by
    rw [float64_eval 7 (200 * 2 ^ 45) (by norm_num) (by norm_num)
      (by rw [abs_lt]; constructor <;> norm_num)]
    norm_num
  rw [a, b, c]

/-- C1 (refuted as stated): the usage counter goes from `2^54` to `2^54 + 1` and the
reference counter from 0 to 100 on one CPU.  Both deltas are strictly positive and the
reference formula gives 1, but the two usage counters convert to the same `float64`
and the result is 0. -/
theorem calculateCPUPercent_rounds_delta_away :
    (mkStats (2 ^ 54) (2 ^ 54 + 1) 0 100 1).PreCPUStats.CPUUsage.TotalUsage <
      (mkStats (2 ^ 54) (2 ^ 54 + 1) 0 100 1).CPUStats.CPUUsage.TotalUsage ∧
    (mkStats (2 ^ 54) (2 ^ 54 + 1) 0 100 1).PreCPUStats.SystemUsage <
      (mkStats (2 ^ 54) (2 ^ 54 + 1) 0 100 1).CPUStats.SystemUsage ∧
    specPercent (2 ^ 54) (2 ^ 54 + 1) 0 100 1 = 1 ∧
    calculateCPUPercent (mkStats (2 ^ 54) (2 ^ 54 + 1) 0 100 1).PreCPUStats
      (mkStats (2 ^ 54) (2 ^ 54 + 1) 0 100 1) = 0 := by
  refine ⟨by decide, by decide, ?_, ?_⟩
  · norm_num [specPercent]
  · have a : float64 (((2 ^ 54 + 1 : ℕ) : ℚ)) = 2 ^ (54 : ℕ) := by
      rw [float64_eval 54 (2 ^ 52) (by norm_num) (by norm_num)
        (by rw [abs_lt]; constructor <;> norm_num)]
      norm_num
    have b : float64 (((2 ^ 54 : ℕ) : ℚ)) = 2 ^ (54 : ℕ) := by
      rw [float64_eval 54 (2 ^ 52) (by norm_num) (by norm_num)
        (by rw [abs_lt]; constructor <;> norm_num)]
      norm_num
    simp only [calculateCPUPercent, mkStats, a, b, sub_self, float64_zero]
    rw [if_neg]
    rintro ⟨_, h⟩
    exact lt_irrefl _ h

/-- C1 (amended): the result is exactly 0 whenever the usage counter or the reference
counter did not strictly increase.  When both strictly increase, the current counters
are below `2^53` and the CPU count is a `uint32`, the result is the reference formula
`cpuDelta / systemDelta * OnlineCPUs * 100` evaluated with three `float64` roundings,
and lies within the factors `(1 - 2^-53)^3` and `(1 + 2^-53)^3` of its exact value. -/
theorem calculateCPUPercent_eq_specPercent_rounded (prev : CPUStats) (v : Stats) :
    ((v.CPUStats.CPUUsage.TotalUsage ≤ prev.CPUUsage.TotalUsage ∨
        v.CPUStats.SystemUsage ≤ prev.SystemUsage) →
      calculateCPUPercent prev v = 0 ∧
      specPercent prev.CPUUsage.TotalUsage v.CPUStats.CPUUsage.TotalUsage
        prev.SystemUsage v.CPUStats.SystemUsage v.CPUStats.OnlineCPUs = 0) ∧
    (prev.CPUUsage.TotalUsage < v.CPUStats.CPUUsage.TotalUsage →
      prev.SystemUsage < v.CPUStats.SystemUsage →
      v.CPUStats.CPUUsage.TotalUsage < 2 ^ 53 → v.CPUStats.SystemUsage < 2 ^ 53 →
      v.CPUStats.OnlineCPUs < 2 ^ 32 →
      (1 - 1 / 2 ^ (53 : ℕ)) ^ 3 *
          specPercent prev.CPUUsage.TotalUsage v.CPUStats.CPUUsage.TotalUsage
            prev.SystemUsage v.CPUStats.SystemUsage v.CPUStats.OnlineCPUs ≤
        calculateCPUPercent prev v ∧
      calculateCPUPercent prev v ≤
        (1 + 1 / 2 ^ (53 : ℕ)) ^ 3 *
          specPercent prev.CPUUsage.TotalUsage v.CPUStats.CPUUsage.TotalUsage
            prev.SystemUsage v.CPUStats.SystemUsage v.CPUStats.OnlineCPUs) := by
  constructor
  · intro h
    exact ⟨calculateCPUPercent_zero prev v h, by simp only [specPercent]; rw [if_pos h]⟩
  · intro hc hs hcb hsb hn
    have hspec : specPercent prev.CPUUsage.TotalUsage v.CPUStats.CPUUsage.TotalUsage
        prev.SystemUsage v.CPUStats.SystemUsage v.CPUStats.OnlineCPUs =
        ((v.CPUStats.CPUUsage.TotalUsage : ℚ) - (prev.CPUUsage.TotalUsage : ℚ)) /
            ((v.CPUStats.SystemUsage : ℚ) - (prev.SystemUsage : ℚ)) *
          (v.CPUStats.OnlineCPUs : ℚ) * 100 := by
      simp only [specPercent]
      rw [if_neg]
      push_neg
      exact ⟨hc, hs⟩
    rw [hspec, calculateCPUPercent_pos prev v hc hs hcb hsb hn]
    have hc' : (0 : ℚ) ≤ (v.CPUStats.CPUUsage.TotalUsage : ℚ) - (prev.CPUUsage.TotalUsage : ℚ) := by
      have : (prev.CPUUsage.TotalUsage : ℚ) < (v.CPUStats.CPUUsage.TotalUsage : ℚ) := by
        exact_mod_cast hc
      linarith
    have hs' : (0 : ℚ) ≤ (v.CPUStats.SystemUsage : ℚ) - (prev.SystemUsage : ℚ) := by
      have : (prev.SystemUsage : ℚ) < (v.CPUStats.SystemUsage : ℚ) := by exact_mod_cast hs
      linarith
    exact three_roundings (div_nonneg hc' hs') (Nat.cast_nonneg _)

/-- C1 (amended), applied: an unchanged usage counter gives 0, and usage 25 over
reference 100 on one CPU gives a value within three roundings of 25. -/
theorem calculateCPUPercent_eq_specPercent_rounded_witness :
    calculateCPUPercent (mkStats 7 7 0 100 1).PreCPUStats (mkStats 7 7 0 100 1) = 0 ∧
    (1 - 1 / 2 ^ (53 : ℕ)) ^ 3 * specPercent 0 25 0 100 1 ≤
      calculateCPUPercent (mkStats 0 25 0 100 1).PreCPUStats (mkStats 0 25 0 100 1) :=
  ⟨((calculateCPUPercent_eq_specPercent_rounded (mkStats 7 7 0 100 1).PreCPUStats
      (mkStats 7 7 0 100 1)).1 (Or.inl (le_refl _))).1,
    ((calculateCPUPercent_eq_specPercent_rounded (mkStats 0 25 0 100 1).PreCPUStats
      (mkStats 0 25 0 100 1)).2 (by decide) (by decide) (by decide) (by decide) (by decide)).1⟩

theorem calculateCPUPercent_le_cap (prev : CPUStats) (v : Stats)
    (hs : prev.SystemUsage < v.CPUStats.SystemUsage)
    (hc : prev.CPUUsage.TotalUsage ≤ v.CPUStats.CPUUsage.TotalUsage)
    (hcb : v.CPUStats.CPUUsage.TotalUsage < 2 ^ 53) (hsb : v.CPUStats.SystemUsage < 2 ^ 53)
    (hn : v.CPUStats.OnlineCPUs < 2 ^ 32)
    (hle : v.CPUStats.CPUUsage.TotalUsage - prev.CPUUsage.TotalUsage ≤
      v.CPUStats.SystemUsage - prev.SystemUsage) :
    calculateCPUPercent prev v ≤ 100 * (v.CPUStats.OnlineCPUs : ℚ) := by
  rcases Nat.eq_or_lt_of_le hc with he | hlt
  · rw [calculateCPUPercent_zero prev v (Or.inl he.ge)]
    positivity
  · rw [calculateCPUPercent_pos prev v hlt hs hcb hsb hn]
    have hle' : v.CPUStats.CPUUsage.TotalUsage + prev.SystemUsage ≤
        v.CPUStats.SystemUsage + prev.CPUUsage.TotalUsage := by omega
    have hleq : (v.CPUStats.CPUUsage.TotalUsage : ℚ) + (prev.SystemUsage : ℚ) ≤
        (v.CPUStats.SystemUsage : ℚ) + (prev.CPUUsage.TotalUsage : ℚ) := by exact_mod_cast hle'
    have hcq : (prev.CPUUsage.TotalUsage : ℚ) < (v.CPUStats.CPUUsage.TotalUsage : ℚ) := by
      exact_mod_cast hlt
    have hsq : (prev.SystemUsage : ℚ) < (v.CPUStats.SystemUsage : ℚ) := by exact_mod_cast hs
    have hs0 : (0 : ℚ) < (v.CPUStats.SystemUsage : ℚ) - (prev.SystemUsage : ℚ) := by linarith
    have hq0 : (0 : ℚ) ≤ ((v.CPUStats.CPUUsage.TotalUsage : ℚ) - (prev.CPUUsage.TotalUsage : ℚ)) /
        ((v.CPUStats.SystemUsage : ℚ) - (prev.SystemUsage : ℚ)) :=
      div_nonneg (by linarith) hs0.le
    have hq1 : ((v.CPUStats.CPUUsage.TotalUsage : ℚ) - (prev.CPUUsage.TotalUsage : ℚ)) /
        ((v.CPUStats.SystemUsage : ℚ) - (prev.SystemUsage : ℚ)) ≤ ((1 : ℕ) : ℚ) := by
      rw [div_le_iff₀ hs0]
      push_cast
      linarith
    have hn0 : (0 : ℚ) ≤ (v.CPUStats.OnlineCPUs : ℚ) := Nat.cast_nonneg _
    generalize ((v.CPUStats.CPUUsage.TotalUsage : ℚ) - (prev.CPUUsage.TotalUsage : ℚ)) /
        ((v.CPUStats.SystemUsage : ℚ) - (prev.SystemUsage : ℚ)) = q at hq0 hq1
    have r1 : float64 q ≤ 1 := by
      have h := float64_mono hq0 hq1
      rw [float64_natCast 1 (by norm_num)] at h
      exact_mod_cast h
    have r1' : 0 ≤ float64 q := float64_nonneg hq0
    have r2 : float64 (float64 q * (v.CPUStats.OnlineCPUs : ℚ)) ≤ (v.CPUStats.OnlineCPUs : ℚ) := by
      have h := float64_mono (mul_nonneg r1' hn0)
        (mul_le_of_le_one_left hn0 r1 : float64 q * (v.CPUStats.OnlineCPUs : ℚ) ≤ _)
      rw [float64_natCast _ (lt_trans hn (by norm_num))] at h
      exact h
    have r2' : 0 ≤ float64 (float64 q * (v.CPUStats.OnlineCPUs : ℚ)) :=
      float64_nonneg (mul_nonneg r1' hn0)
    have e100 : (v.CPUStats.OnlineCPUs : ℚ) * 100 = ((v.CPUStats.OnlineCPUs * 100 : ℕ) : ℚ) := by
      push_cast
      ring
    have h := float64_mono (mul_nonneg r2' (by norm_num : (0 : ℚ) ≤ 100))
      (mul_le_mul_of_nonneg_right r2 (by norm_num : (0 : ℚ) ≤ 100))
    rw [e100, float64_natCast _ (by omega)] at h
    calc float64 (float64 (float64 q * (v.CPUStats.OnlineCPUs : ℚ)) * 100)
        ≤ ((v.CPUStats.OnlineCPUs * 100 : ℕ) : ℚ) := h
      _ = 100 * (v.CPUStats.OnlineCPUs : ℚ) := by
          push_cast
          ring

/-- C2 (refuted as stated): with usage delta 200, reference delta 100 and one online
CPU, both hypotheses of the claim hold and the result is 200, above `100 * units`. -/
theorem calculateCPUPercent_exceeds_cap :
    (mkStats 0 200 0 100 1).PreCPUStats.SystemUsage < (mkStats 0 200 0 100 1).CPUStats.SystemUsage ∧
    (mkStats 0 200 0 100 1).PreCPUStats.CPUUsage.TotalUsage ≤
      (mkStats 0 200 0 100 1).CPUStats.CPUUsage.TotalUsage ∧
    calculateCPUPercent (mkStats 0 200 0 100 1).PreCPUStats (mkStats 0 200 0 100 1) = 200 ∧
    ¬ (calculateCPUPercent (mkStats 0 200 0 100 1).PreCPUStats (mkStats 0 200 0 100 1) ≤
        100 * ((mkStats 0 200 0 100 1).CPUStats.OnlineCPUs : ℚ)) := by
  refine ⟨by decide, by decide, sample_200, ?_⟩
  rw [sample_200]
  norm_num [mkStats]

/-- Above `2^53` the bound of `100 * units` can fail although the usage delta does not
exceed the reference delta: usage 0 to 1001 and reference `2^53 + 3` to `2^53 + 1005` on
one CPU have deltas 1001 and 1002, the reference counters convert to `2^53 + 4` and
`2^53 + 1004`, and the result is above 100. -/
theorem calculateCPUPercent_cap_needs_exact_counters :
    (mkStats 0 1001 (2 ^ 53 + 3) (2 ^ 53 + 1005) 1).CPUStats.CPUUsage.TotalUsage -
        (mkStats 0 1001 (2 ^ 53 + 3) (2 ^ 53 + 1005) 1).PreCPUStats.CPUUsage.TotalUsage ≤
      (mkStats 0 1001 (2 ^ 53 + 3) (2 ^ 53 + 1005) 1).CPUStats.SystemUsage -
        (mkStats 0 1001 (2 ^ 53 + 3) (2 ^ 53 + 1005) 1).PreCPUStats.SystemUsage ∧
    100 < calculateCPUPercent (mkStats 0 1001 (2 ^ 53 + 3) (2 ^ 53 + 1005) 1).PreCPUStats
      (mkStats 0 1001 (2 ^ 53 + 3) (2 ^ 53 + 1005) 1) := by
  refine ⟨by decide, ?_⟩
  have a : float64 (((2 ^ 53 + 1005 : ℕ) : ℚ)) = 2 ^ (53 : ℕ) + 1004 := by
    rw [float64_of_binade (e := 53) (by norm_num) (by norm_num)]
    have e : (((2 ^ 53 + 1005 : ℕ) : ℚ)) / 2 ^ ((53 : ℤ) - 52) =
        ((2 ^ 52 + 502 : ℤ) : ℚ) + 1 / 2 := by
      norm_num
    rw [e, roundHalfEven_tie]
    norm_num
  have b : float64 (((2 ^ 53 + 3 : ℕ) : ℚ)) = 2 ^ (53 : ℕ) + 4 := by
    rw [float64_of_binade (e := 53) (by norm_num) (by norm_num)]
    have e : (((2 ^ 53 + 3 : ℕ) : ℚ)) / 2 ^ ((53 : ℤ) - 52) =
        ((2 ^ 52 + 1 : ℤ) : ℚ) + 1 / 2 := by
      norm_num
    rw [e, roundHalfEven_tie]
    norm_num
  have c : float64 (((1001 : ℕ) : ℚ)) = 1001 := by
    rw [float64_natCast 1001 (by norm_num)]
    norm_num
  have d : float64 ((2 : ℚ) ^ (53 : ℕ) + 1004 - (2 ^ (53 : ℕ) + 4)) = 1000 := by
    have h := float64_natCast 1000 (by norm_num)
    have e : (2 : ℚ) ^ (53 : ℕ) + 1004 - (2 ^ (53 : ℕ) + 4) = ((1000 : ℕ) : ℚ) := by norm_num
    rw [e, h]
    norm_num
  have c' : float64 ((1001 : ℚ) - 0) = 1001 := by
    have h := float64_natCast 1001 (by norm_num)
    have e : (1001 : ℚ) - 0 = ((1001 : ℕ) : ℚ) := by norm_num
    rw [e, h]
    norm_num
  have one : float64 (((1 : ℕ) : ℚ)) = 1 := by
    rw [float64_natCast 1 (by norm_num)]
    norm_num
  simp only [calculateCPUPercent, mkStats, a, b, c, d, c', one, Nat.cast_zero, float64_zero,
    mul_one]
  rw [if_pos (by norm_num)]
  have q0 : (0 : ℚ) ≤ 1025 / 1024 := by norm_num
  have r1 : (1025 : ℚ) / 1024 ≤ float64 ((1001 : ℚ) / 1000) := by
    have h := float64_mono q0 (by norm_num : (1025 : ℚ) / 1024 ≤ 1001 / 1000)
    have e : (1025 : ℚ) / 1024 = ((1025 : ℕ) : ℚ) * 2 ^ (-10 : ℤ) := by norm_num
    rw [e, float64_dyadic 1025 (-10) (by norm_num)] at h
    rw [e]
    exact h
  have r2 : (1025 : ℚ) / 1024 ≤ float64 (float64 ((1001 : ℚ) / 1000)) := by
    have h := float64_mono q0 r1
    have e : (1025 : ℚ) / 1024 = ((1025 : ℕ) : ℚ) * 2 ^ (-10 : ℤ) := by norm_num
    rw [e, float64_dyadic 1025 (-10) (by norm_num)] at h
    rw [e]
    exact h
  have r3 : (25625 : ℚ) / 256 ≤ float64 (float64 (float64 ((1001 : ℚ) / 1000)) * 100) := by
    have h := float64_mono (by norm_num : (0 : ℚ) ≤ 25625 / 256)
      (by linarith : (25625 : ℚ) / 256 ≤ float64 (float64 ((1001 : ℚ) / 1000)) * 100)
    have e : (25625 : ℚ) / 256 = ((25625 : ℕ) : ℚ) * 2 ^ (-8 : ℤ) := by norm_num
    rw [e, float64_dyadic 25625 (-8) (by norm_num)] at h
    rw [e]
    exact h
  linarith

/-- C2 (amended): when the reference counter strictly increased and the usage counter did
not decrease, the result is non-negative; it is at most `100 * units` when, in addition,
the current counters are below `2^53`, the CPU count is a `uint32` and the usage delta
does not exceed the reference delta. -/
theorem calculateCPUPercent_bounds (prev : CPUStats) (v : Stats)
    (hs : prev.SystemUsage < v.CPUStats.SystemUsage)
    (hc : prev.CPUUsage.TotalUsage ≤ v.CPUStats.CPUUsage.TotalUsage) :
    0 ≤ calculateCPUPercent prev v ∧
    (v.CPUStats.CPUUsage.TotalUsage < 2 ^ 53 → v.CPUStats.SystemUsage < 2 ^ 53 →
      v.CPUStats.OnlineCPUs < 2 ^ 32 →
      v.CPUStats.CPUUsage.TotalUsage - prev.CPUUsage.TotalUsage ≤
        v.CPUStats.SystemUsage - prev.SystemUsage →
      calculateCPUPercent prev v ≤ 100 * (v.CPUStats.OnlineCPUs : ℚ)) :=
  ⟨calculateCPUPercent_nonneg prev v,
    fun hcb hsb hn hle => calculateCPUPercent_le_cap prev v hs hc hcb hsb hn hle⟩

/-- C2 (amended), applied: usage delta 50, reference delta 100, two online CPUs. -/
theorem calculateCPUPercent_bounds_witness :
    (mkStats 10 60 100 200 2).PreCPUStats.SystemUsage < (mkStats 10 60 100 200 2).CPUStats.SystemUsage ∧
    (mkStats 10 60 100 200 2).PreCPUStats.CPUUsage.TotalUsage ≤
      (mkStats 10 60 100 200 2).CPUStats.CPUUsage.TotalUsage ∧
    0 ≤ calculateCPUPercent (mkStats 10 60 100 200 2).PreCPUStats (mkStats 10 60 100 200 2) ∧
    calculateCPUPercent (mkStats 10 60 100 200 2).PreCPUStats (mkStats 10 60 100 200 2) ≤
      100 * ((mkStats 10 60 100 200 2).CPUStats.OnlineCPUs : ℚ) :=
  ⟨by decide, by decide,
    (calculateCPUPercent_bounds (mkStats 10 60 100 200 2).PreCPUStats (mkStats 10 60 100 200 2)
      (by decide) (by decide)).1,
    (calculateCPUPercent_bounds (mkStats 10 60 100 200 2).PreCPUStats (mkStats 10 60 100 200 2)
      (by decide) (by decide)).2 (by decide) (by decide) (by decide) (by decide)⟩

/-- C3 (refuted as stated): with the zero-valued previous counters and a current
snapshot of usage 50, reference 100 and one online CPU, the result is 50, not 0. -/
theorem calculateCPUPercent_cold_start_nonzero :
    calculateCPUPercent zeroCPUStats (mkStats 0 50 0 100 1) = 50 ∧
    calculateCPUPercent zeroCPUStats (mkStats 0 50 0 100 1) ≠ 0 := by
  have h : calculateCPUPercent zeroCPUStats (mkStats 0 50 0 100 1) = 50 := sample_50
  refine ⟨h, ?_⟩
  rw [h]
  norm_num

/-- C3 (amended): against the zero-valued previous counters the result is 0 exactly
when the current usage counter, the current reference counter or the number of online
CPUs is 0.  When none of them is 0, the counters are below `2^53` and the CPU count is a
`uint32`, the result is `usage / reference * OnlineCPUs * 100` evaluated with three
`float64` roundings, within the factors `(1 - 2^-53)^3` and `(1 + 2^-53)^3` of its exact
value. -/
theorem calculateCPUPercent_cold_start (v : Stats) :
    (calculateCPUPercent zeroCPUStats v = 0 ↔
      (v.CPUStats.CPUUsage.TotalUsage = 0 ∨ v.CPUStats.SystemUsage = 0 ∨
        v.CPUStats.OnlineCPUs = 0)) ∧
    (0 < v.CPUStats.CPUUsage.TotalUsage → 0 < v.CPUStats.SystemUsage →
      v.CPUStats.CPUUsage.TotalUsage < 2 ^ 53 → v.CPUStats.SystemUsage < 2 ^ 53 →
      v.CPUStats.OnlineCPUs < 2 ^ 32 →
      (1 - 1 / 2 ^ (53 : ℕ)) ^ 3 *
          ((v.CPUStats.CPUUsage.TotalUsage : ℚ) / (v.CPUStats.SystemUsage : ℚ) *
            (v.CPUStats.OnlineCPUs : ℚ) * 100) ≤
        calculateCPUPercent zeroCPUStats v ∧
      calculateCPUPercent zeroCPUStats v ≤
        (1 + 1 / 2 ^ (53 : ℕ)) ^ 3 *
          ((v.CPUStats.CPUUsage.TotalUsage : ℚ) / (v.CPUStats.SystemUsage : ℚ) *
            (v.CPUStats.OnlineCPUs : ℚ) * 100)) := by
  constructor
  · constructor
    · intro h0
      by_contra hne
      push_neg at hne
      obtain ⟨hu, hs, hn⟩ := hne
      have hu' : (0 : ℚ) < (v.CPUStats.CPUUsage.TotalUsage : ℚ) := by
        exact_mod_cast Nat.pos_of_ne_zero hu
      have hs' : (0 : ℚ) < (v.CPUStats.SystemUsage : ℚ) := by
        exact_mod_cast Nat.pos_of_ne_zero hs
      have hn' : (0 : ℚ) < (v.CPUStats.OnlineCPUs : ℚ) := by
        exact_mod_cast Nat.pos_of_ne_zero hn
      have hc : 0 < float64 (float64 (v.CPUStats.CPUUsage.TotalUsage : ℚ) -
          float64 ((zeroCPUStats.CPUUsage.TotalUsage : ℕ) : ℚ)) := by
        simp only [zeroCPUStats, Nat.cast_zero, float64_zero, sub_zero]
        exact float64_pos (float64_pos hu')
      have hsd : 0 < float64 (float64 (v.CPUStats.SystemUsage : ℚ) -
          float64 ((zeroCPUStats.SystemUsage : ℕ) : ℚ)) := by
        simp only [zeroCPUStats, Nat.cast_zero, float64_zero, sub_zero]
        exact float64_pos (float64_pos hs')
      simp only [calculateCPUPercent] at h0
      rw [if_pos ⟨hsd, hc⟩] at h0
      have hpos := float64_pos (mul_pos (float64_pos (mul_pos (float64_pos (div_pos hc hsd))
        (float64_pos hn'))) (by norm_num : (0 : ℚ) < 100))
      linarith
    · rintro (h | h | h)
      · exact calculateCPUPercent_zero zeroCPUStats v (Or.inl (by simp [zeroCPUStats, h]))
      · exact calculateCPUPercent_zero zeroCPUStats v (Or.inr (by simp [zeroCPUStats, h]))
      · simp only [calculateCPUPercent, h, Nat.cast_zero, float64_zero, mul_zero, zero_mul]
        split_ifs <;> rfl
  · intro hu hs hcb hsb hn
    have h := calculateCPUPercent_pos zeroCPUStats v hu hs hcb hsb hn
    simp only [zeroCPUStats, Nat.cast_zero, sub_zero] at h
    rw [show calculateCPUPercent zeroCPUStats v = _ from h]
    exact three_roundings (div_nonneg (Nat.cast_nonneg _) (Nat.cast_nonneg _)) (Nat.cast_nonneg _)

/-- C3 (amended), applied: usage 50 over reference 100 on one CPU. -/
theorem calculateCPUPercent_cold_start_witness :
    (1 - 1 / 2 ^ (53 : ℕ)) ^ 3 * (((50 : ℕ) : ℚ) / ((100 : ℕ) : ℚ) * ((1 : ℕ) : ℚ) * 100) ≤
      calculateCPUPercent zeroCPUStats (mkStats 0 50 0 100 1) :=
  ((calculateCPUPercent_cold_start (mkStats 0 50 0 100 1)).2 (by decide) (by decide)
    (by decide) (by decide) (by decide)).1

/-! ## Lookup name and discovery filters -/

theorem swarmNameAndFilters_stack (configSvc : ConfigService) (h : configSvc.StackName ≠ "") :
    swarmNameAndFilters configSvc =
      (configSvc.StackName ++ "_" ++ configSvc.Name,
        [⟨"label", "com.docker.stack.namespace=" ++ configSvc.StackName⟩,
          ⟨"name", configSvc.StackName ++ "_" ++ configSvc.Name⟩]) := by
  simp [swarmNameAndFilters, h]

theorem swarmNameAndFilters_plain (configSvc : ConfigService) (h : configSvc.StackName = "") :
    swarmNameAndFilters configSvc = (configSvc.Name, [⟨"name", configSvc.Name⟩]) := by
  simp [swarmNameAndFilters, h]

theorem name_filter_mem_defaultFilters (configSvc : ConfigService) (name : String)
    (h : (⟨"name", name⟩ : KeyValuePair) ∈ defaultFilters configSvc) :
    name = swarmName configSvc := by
  by_cases hs : configSvc.StackName = ""
  · simp only [defaultFilters, swarmName, swarmNameAndFilters_plain configSvc hs,
      List.mem_singleton, KeyValuePair.mk.injEq] at h ⊢
    exact h.2
  · simp only [defaultFilters, swarmName, swarmNameAndFilters_stack configSvc hs,
      List.mem_cons, KeyValuePair.mk.injEq, List.mem_singleton, List.not_mem_nil,
      or_false] at h ⊢
    rcases h with h | h
    · exact absurd h.1 (by decide)
    · exact h.2

/-- C9: the lookup name is `StackName + "_" + Name` and the discovery filters are the
stack-namespace label followed by the name filter when `StackName` is non-empty; the
lookup name is `Name` and the only filter is the name filter when it is empty.  The
label filter is present exactly when `StackName` is non-empty, and the filters with
key `name` are exactly the one for the lookup name. -/
theorem swarmNameAndFilters_spec (configSvc : ConfigService) :
    (configSvc.StackName ≠ "" →
      swarmName configSvc = configSvc.StackName ++ "_" ++ configSvc.Name ∧
      defaultFilters configSvc =
        [⟨"label", "com.docker.stack.namespace=" ++ configSvc.StackName⟩,
          ⟨"name", configSvc.StackName ++ "_" ++ configSvc.Name⟩]) ∧
    (configSvc.StackName = "" →
      swarmName configSvc = configSvc.Name ∧
      defaultFilters configSvc = [⟨"name", configSvc.Name⟩]) ∧
    ((∃ f ∈ defaultFilters configSvc, f.Key = "label") ↔ configSvc.StackName ≠ "") ∧
    ((⟨"label", "com.docker.stack.namespace=" ++ configSvc.StackName⟩ : KeyValuePair) ∈
        defaultFilters configSvc ↔ configSvc.StackName ≠ "") ∧
    (defaultFilters configSvc).filter (fun f => f.Key = "name") =
      [⟨"name", swarmName configSvc⟩] := by
  have hln : ("label" : String) ≠ "name" := by decide
  by_cases hs : configSvc.StackName = ""
  · have e := swarmNameAndFilters_plain configSvc hs
    refine ⟨fun h => absurd hs h, fun _ => ?_, ?_, ?_, ?_⟩
    · simp [swarmName, defaultFilters, e]
    · simp [defaultFilters, e, hs]
    · simp [defaultFilters, e, hs]
    · simp [swarmName, defaultFilters, e]
  · have e := swarmNameAndFilters_stack configSvc hs
    refine ⟨fun _ => ?_, fun h => absurd h hs, ?_, ?_, ?_⟩
    · simp [swarmName, defaultFilters, e]
    · simp [defaultFilters, e, hs]
    · simp [defaultFilters, e, hs]
    · simp [swarmName, defaultFilters, e, List.filter]

/-- C9, applied to the two example services: `olc_traefik` with both filters, and
`web` with the name filter alone. -/
theorem swarmNameAndFilters_spec_witness :
    (swarmName traefik = "olc_traefik" ∧
      defaultFilters traefik =
        [⟨"label", "com.docker.stack.namespace=olc"⟩, ⟨"name", "olc_traefik"⟩]) ∧
    (swarmName standalone = "web" ∧ defaultFilters standalone = [⟨"name", "web"⟩]) :=
  ⟨(swarmNameAndFilters_spec traefik).1 (by decide),
    (swarmNameAndFilters_spec standalone).2.1 (by decide)⟩

/-! ## The evaluation of one service -/

theorem evalService_eq (dockerClient : DockerClient) (ignoredServicesIds : List String)
    (configSvc : ConfigService) :
    evalService dockerClient ignoredServicesIds configSvc =
      if ignoredServicesIds.contains (swarmName configSvc) then
        (ignoredServicesIds,
          [Effect.log (LogLine.ignoringErroredService (swarmName configSvc))])
      else
        match dockerClient.ServiceList true (defaultFilters configSvc) with
        | .error err =>
          (ignoredServicesIds ++ [swarmName configSvc],
            [Effect.serviceList true (defaultFilters configSvc),
              Effect.log (LogLine.errorGettingServices (some err))])
        | .ok dockerServices =>
          if dockerServices.length = 0 then
            (ignoredServicesIds ++ [swarmName configSvc],
              [Effect.serviceList true (defaultFilters configSvc),
                Effect.log (LogLine.errorGettingServices none)])
          else
            (ignoredServicesIds,
              Effect.serviceList true (defaultFilters configSvc) ::
                (dockerServices.map (sampleService dockerClient)).flatten) := rfl

theorem evalService_of_mem (dockerClient : DockerClient) (ignoredServicesIds : List String)
    (configSvc : ConfigService) (h : swarmName configSvc ∈ ignoredServicesIds) :
    evalService dockerClient ignoredServicesIds configSvc =
      (ignoredServicesIds,
        [Effect.log (LogLine.ignoringErroredService (swarmName configSvc))]) := by
  rw [evalService_eq, if_pos]
  simpa using h

theorem sampleContainers_not_discovery (dockerClient : DockerClient) (serviceName : String)
    (dc : List Container) :
    ∀ e ∈ sampleContainers dockerClient serviceName dc, e.isDiscoveryRequest = false := by
  induction dc with
  | nil => simp [sampleContainers]
  | cons c rest ih =>
    intro e he
    simp only [sampleContainers, List.mem_cons] at he
    rcases he with rfl | he
    · rfl
    · cases hst : dockerClient.ContainerStats c.ID false with
      | error err =>
        rw [hst] at he
        simp only [List.mem_singleton] at he
        subst he
        rfl
      | ok body =>
        rw [hst] at he
        simp only [List.mem_cons] at he
        rcases he with rfl | he
        · rfl
        · exact ih e he

theorem sampleService_not_discovery (dockerClient : DockerClient) (service : Service) :
    ∀ e ∈ sampleService dockerClient service, e.isDiscoveryRequest = false := by
  intro e he
  simp only [sampleService, List.mem_cons] at he
  rcases he with rfl | he
  · rfl
  · split at he
    · simp only [List.mem_singleton] at he
      subst he
      rfl
    · split_ifs at he
      · simp only [List.mem_singleton] at he
        subst he
        rfl
      · exact sampleContainers_not_discovery _ _ _ e he

theorem isDiscoveryOf_le (name : String) (e : Effect) (h : e.isDiscoveryRequest = false) :
    e.isDiscoveryOf name = false := by
  cases e <;> simp_all [Effect.isDiscoveryOf, Effect.isDiscoveryRequest]

theorem evalService_mono (dockerClient : DockerClient) (ignoredServicesIds : List String)
    (configSvc : ConfigService) (name : String) (h : name ∈ ignoredServicesIds) :
    name ∈ (evalService dockerClient ignoredServicesIds configSvc).1 := by
  rw [evalService_eq]
  split_ifs
  · exact h
  · split
    · simp [h]
    · split_ifs <;> simp [h]

theorem evalService_no_discovery_of (dockerClient : DockerClient)
    (ignoredServicesIds : List String) (configSvc : ConfigService) (name : String)
    (h : name ∈ ignoredServicesIds) :
    ∀ e ∈ (evalService dockerClient ignoredServicesIds configSvc).2,
      e.isDiscoveryOf name = false := by
  by_cases hm : swarmName configSvc ∈ ignoredServicesIds
  · rw [evalService_of_mem _ _ _ hm]
    intro e he
    simp only [List.mem_singleton] at he
    subst he
    rfl
  · have hne : name ≠ swarmName configSvc := fun e => hm (e ▸ h)
    have hflt : (Effect.serviceList true (defaultFilters configSvc)).isDiscoveryOf name = false := by
      simp only [Effect.isDiscoveryOf]
      rw [Bool.eq_false_iff]
      intro hc
      have hc' : (⟨"name", name⟩ : KeyValuePair) ∈ defaultFilters configSvc := by simpa using hc
      exact hne (name_filter_mem_defaultFilters configSvc name hc')
    rw [evalService_eq]
    split_ifs with hi
    · exact absurd (by simpa using hi) hm
    · split
      · intro e he
        simp only [List.mem_cons, List.mem_singleton, List.not_mem_nil, or_false] at he
        rcases he with rfl | rfl
        · exact hflt
        · rfl
      · split_ifs
        · intro e he
          simp only [List.mem_cons, List.mem_singleton, List.not_mem_nil, or_false] at he
          rcases he with rfl | rfl
          · exact hflt
          · rfl
        · intro e he
          simp only [List.mem_cons, List.mem_flatten, List.mem_map] at he
          rcases he with rfl | ⟨l, ⟨s, _, rfl⟩, hel⟩
          · exact hflt
          · exact isDiscoveryOf_le name e (sampleService_not_discovery _ s e hel)


/-! ## Runs -/

theorem discoveryFails_eq_true (dockerClient : DockerClient) (configSvc : ConfigService)
    (h : ∀ l, dockerClient.ServiceList true (defaultFilters configSvc) = .ok l → l = []) :
    discoveryFails dockerClient configSvc = true := by
  unfold discoveryFails
  cases hsl : dockerClient.ServiceList true (defaultFilters configSvc) with
  | error err => rfl
  | ok l =>
    have := h l hsl
    subst this
    rfl

theorem run_cons (event : Event) (rest : List Event) (w : World) :
    run (event :: rest) w =
      ((run rest (step w event).1).1, (step w event).2 ++ (run rest (step w event).1).2) := rfl

/-- An `append` whose read and write are adjacent leaves no goroutine holding a stale
value, and keeps every name of the list. -/
theorem step_append_atomic (w : World) (g : Nat) (hw : w.noneHolding) :
    (step (step w (Event.appendRead g)).1 (Event.appendWrite g)).1.noneHolding ∧
    (∀ name ∈ w.ignoredServicesIds,
      name ∈ (step (step w (Event.appendRead g)).1 (Event.appendWrite g)).1.ignoredServicesIds) ∧
    (step w (Event.appendRead g)).2 = [] ∧
    (step (step w (Event.appendRead g)).1 (Event.appendWrite g)).2 = [] := by
  cases hA : w.appenders g with
  | idle =>
    have h1 : step w (Event.appendRead g) = (w, []) := by simp only [step, hA]
    have h2 : step w (Event.appendWrite g) = (w, []) := by simp only [step, hA]
    rw [h1]
    simp only [h2]
    refine ⟨hw, fun _ h => h, ?_, ?_⟩ <;> trivial
  | holding n r => exact absurd hA (hw g n r)
  | waiting n =>
    have h1 : step w (Event.appendRead g) =
        ({ w with
            appenders := Function.update w.appenders g
              (Appender.holding n w.ignoredServicesIds) }, []) := by
      simp only [step, hA]
    rw [h1]
    have h2 : step
          { w with
            appenders := Function.update w.appenders g
              (Appender.holding n w.ignoredServicesIds) }
          (Event.appendWrite g) =
        ({ w with
            ignoredServicesIds := w.ignoredServicesIds ++ [n]
            appenders := Function.update
              (Function.update w.appenders g (Appender.holding n w.ignoredServicesIds)) g
              Appender.idle }, []) := by
      simp only [step, Function.update_same]
    simp only [h2]
    refine ⟨?_, ?_, ?_, ?_⟩
    rotate_left 2
    · trivial
    · trivial
    · intro g' n' r' hc
      by_cases hg : g' = g
      · subst hg
        simp [Function.update_same] at hc
      · simp only [Function.update_noteq hg] at hc
        exact hw g' n' r' hc
    · intro name h
      exact List.mem_append_left _ h

theorem step_start_noneHolding (w : World) (dockerClient : DockerClient)
    (configSvc : ConfigService) (hw : w.noneHolding) :
    (step w (Event.start dockerClient configSvc)).1.noneHolding := by
  intro g n r hc
  simp only [step] at hc
  by_cases hg : g = w.started
  · subst hg
    rw [Function.update_same] at hc
    split_ifs at hc
  · rw [Function.update_noteq hg] at hc
    exact hw g n r hc

/-- In a run whose appends are atomic, started with no goroutine between the read and
the write of its append: no goroutine is left there, every name of the list is kept,
and no discovery request is made for a name that was in the list at the start. -/
theorem run_atomic (name : String) :
    ∀ (events : List Event) (w : World), atomicAppends events = true → w.noneHolding →
      (run events w).1.noneHolding ∧
      (name ∈ w.ignoredServicesIds →
        name ∈ (run events w).1.ignoredServicesIds ∧
        ∀ e ∈ (run events w).2, e.isDiscoveryOf name = false)
  | [], w, _, hw => ⟨hw, fun h => ⟨h, by simp [run]⟩⟩
  | .tick d :: rest, w, ha, hw => by
    have ha' : atomicAppends rest = true := by simpa [atomicAppends] using ha
    obtain ⟨h1, h2⟩ := run_atomic name rest w ha' hw
    rw [run_cons]
    refine ⟨h1, fun h => ⟨(h2 h).1, ?_⟩⟩
    intro e he
    simp only [step, List.mem_append, List.mem_singleton] at he
    rcases he with rfl | he
    · rfl
    · exact (h2 h).2 e he
  | .start dockerClient configSvc :: rest, w, ha, hw => by
    have ha' : atomicAppends rest = true := by simpa [atomicAppends] using ha
    obtain ⟨h1, h2⟩ := run_atomic name rest (step w (Event.start dockerClient configSvc)).1 ha'
      (step_start_noneHolding w dockerClient configSvc hw)
    rw [run_cons]
    refine ⟨h1, fun h => ?_⟩
    have h' : name ∈ (step w (Event.start dockerClient configSvc)).1.ignoredServicesIds := h
    refine ⟨(h2 h').1, ?_⟩
    intro e he
    rw [List.mem_append] at he
    rcases he with he | he
    · exact evalService_no_discovery_of dockerClient w.ignoredServicesIds configSvc name h e he
    · exact (h2 h').2 e he
  | .appendRead g :: .appendWrite g' :: rest, w, ha, hw => by
    have hb : g = g' ∧ atomicAppends rest = true := by simpa [atomicAppends] using ha
    obtain ⟨hg, ha'⟩ := hb
    subst hg
    obtain ⟨s1, s2, s3, s4⟩ := step_append_atomic w g hw
    obtain ⟨h1, h2⟩ := run_atomic name rest
      (step (step w (Event.appendRead g)).1 (Event.appendWrite g)).1 ha' s1
    rw [run_cons, run_cons, s3, s4]
    refine ⟨h1, fun h => ?_⟩
    simpa using h2 (s2 name h)
  | [.appendRead _], _, ha, _ => by simp [atomicAppends] at ha
  | .appendRead _ :: .tick _ :: _, _, ha, _ => by simp [atomicAppends] at ha
  | .appendRead _ :: .start _ _ :: _, _, ha, _ => by simp [atomicAppends] at ha
  | .appendRead _ :: .appendRead _ :: _, _, ha, _ => by simp [atomicAppends] at ha
  | .appendWrite _ :: _, _, ha, _ => by simp [atomicAppends] at ha

theorem noneHolding_initial : World.initial.noneHolding := by
  intro g n r hc
  simp [World.initial] at hc

/-! ## Excluded services -/

/-- C8: when the lookup name of a configured service is already in the exclusion list
at its evaluation, the evaluation leaves the list unchanged (the name is not appended
again), issues no discovery request and no stats request, sends nothing, and only logs
that the service is ignored. -/
theorem evalService_excluded_skipped (dockerClient : DockerClient)
    (ignoredServicesIds : List String) (configSvc : ConfigService)
    (h : swarmName configSvc ∈ ignoredServicesIds) :
    (evalService dockerClient ignoredServicesIds configSvc).1 = ignoredServicesIds ∧
    (∀ e ∈ (evalService dockerClient ignoredServicesIds configSvc).2,
      e.isDiscoveryRequest = false ∧ e.isStatsRequest = false) ∧
    sentMessages (evalService dockerClient ignoredServicesIds configSvc).2 = [] ∧
    (evalService dockerClient ignoredServicesIds configSvc).2 =
      [Effect.log (LogLine.ignoringErroredService (swarmName configSvc))] := by
  rw [evalService_of_mem _ _ _ h]
  refine ⟨rfl, ?_, rfl, rfl⟩
  intro e he
  simp only [List.mem_singleton] at he
  subst he
  exact ⟨rfl, rfl⟩

/-- C8, applied: `olc_traefik` is excluded and the daemon would answer every call. -/
theorem evalService_excluded_skipped_witness :
    swarmName traefik ∈ ["olc_grafana", "olc_traefik"] ∧
    (evalService (traefikClient [⟨"c1"⟩] (fun _ => .ok (sampleBody 25)))
        ["olc_grafana", "olc_traefik"] traefik).1 = ["olc_grafana", "olc_traefik"] ∧
    sentMessages (evalService (traefikClient [⟨"c1"⟩] (fun _ => .ok (sampleBody 25)))
        ["olc_grafana", "olc_traefik"] traefik).2 = [] :=
  ⟨by decide,
    (evalService_excluded_skipped (traefikClient [⟨"c1"⟩] (fun _ => .ok (sampleBody 25)))
      ["olc_grafana", "olc_traefik"] traefik (by decide)).1,
    (evalService_excluded_skipped (traefikClient [⟨"c1"⟩] (fun _ => .ok (sampleBody 25)))
      ["olc_grafana", "olc_traefik"] traefik (by decide)).2.2.1⟩


theorem atomicAppends_servicesInOrder (dockerClient : DockerClient) (rest : List Event) :
    ∀ (services : List ConfigService) (g : Nat),
      atomicAppends (servicesInOrder dockerClient services g ++ rest) = atomicAppends rest := by
  intro services
  induction services with
  | nil => intro g; rfl
  | cons svc more ih =>
    intro g
    simp only [servicesInOrder, List.cons_append, atomicAppends, beq_self_eq_true, Bool.true_and]
    exact ih (g + 1)

theorem atomicAppends_launchOrder (cfg : Config) :
    ∀ (ticks : List (Int × DockerClient)) (g : Nat),
      atomicAppends (launchOrder cfg ticks g) = true := by
  intro ticks
  induction ticks with
  | nil => intro g; rfl
  | cons t rest ih =>
    intro g
    obtain ⟨d, dockerClient⟩ := t
    simp only [launchOrder, atomicAppends]
    rw [atomicAppends_servicesInOrder]
    exact ih _

/-- An append that is not atomic can be lost: two goroutines whose discovery fails both
read the empty list before either writes, and the list ends with the second name alone. -/
theorem append_can_be_lost :
    (run
      [Event.start downClient traefik, Event.start downClient grafana, Event.appendRead 0,
        Event.appendRead 1, Event.appendWrite 0, Event.appendWrite 1]
      World.initial).1.ignoredServicesIds = ["olc_grafana"] := by
  decide

/-- Two goroutines for one lookup name that both check the list before either appends
both make the discovery request, and the name is appended twice. -/
theorem check_is_not_exclusive :
    (run
      [Event.start downClient traefik, Event.start downClient traefik, Event.appendRead 0,
        Event.appendWrite 0, Event.appendRead 1, Event.appendWrite 1]
      World.initial).1.ignoredServicesIds = ["olc_traefik", "olc_traefik"] ∧
    ((run
      [Event.start downClient traefik, Event.start downClient traefik, Event.appendRead 0,
        Event.appendWrite 0, Event.appendRead 1, Event.appendWrite 1]
      World.initial).2.filter Effect.isDiscoveryRequest).length = 2 := by
  decide

/-- C6 (refuted as stated): after a tick on which discovery fails, `olc_traefik` is in
the exclusion list, and whatever ticks follow with the goroutines run one after another
in launch order, and whatever the daemon answers on them, it is still in the list
afterwards and no discovery request for it is made. -/
theorem exclusion_never_expires :
    "olc_traefik" ∈
      (run (launchOrder appConfig [(0, downClient)] 0) World.initial).1.ignoredServicesIds ∧
    ∀ ticks : List (Int × DockerClient),
      "olc_traefik" ∈
        (run (launchOrder appConfig ticks 2)
          (run (launchOrder appConfig [(0, downClient)] 0) World.initial).1).1.ignoredServicesIds ∧
      ∀ e ∈
        (run (launchOrder appConfig ticks 2)
          (run (launchOrder appConfig [(0, downClient)] 0) World.initial).1).2,
        e.isDiscoveryOf "olc_traefik" = false := by
  have h : "olc_traefik" ∈
      (run (launchOrder appConfig [(0, downClient)] 0) World.initial).1.ignoredServicesIds := by
    decide
  have hn := (run_atomic "olc_traefik" (launchOrder appConfig [(0, downClient)] 0) World.initial
    (atomicAppends_launchOrder _ _ _) noneHolding_initial).1
  exact ⟨h, fun ticks =>
    (run_atomic "olc_traefik" (launchOrder appConfig ticks 2) _
      (atomicAppends_launchOrder _ _ _) hn).2 h⟩

/-- C6 (amended): exclusion has no expiry.  A goroutine whose discovery fails or
returns no service while its lookup name is not in the list appends the name.  In every
run in which the read and the write of each append are not separated by another event,
started with no append half done, a lookup name that is in the list stays in it to the
end of the run, and no discovery request for that name is made. -/
theorem exclusion_is_permanent (events : List Event) (w : World)
    (dockerClient : DockerClient) (configSvc : ConfigService) :
    (swarmName configSvc ∉ w.ignoredServicesIds →
      (∀ l, dockerClient.ServiceList true (defaultFilters configSvc) = .ok l → l = []) →
      (run
        [Event.start dockerClient configSvc, Event.appendRead w.started,
          Event.appendWrite w.started] w).1.ignoredServicesIds =
        w.ignoredServicesIds ++ [swarmName configSvc]) ∧
    (swarmName configSvc ∈ w.ignoredServicesIds → w.noneHolding →
      atomicAppends events = true →
      swarmName configSvc ∈ (run events w).1.ignoredServicesIds ∧
      ∀ e ∈ (run events w).2, e.isDiscoveryOf (swarmName configSvc) = false) := by
  refine ⟨?_, fun h hw ha => (run_atomic (swarmName configSvc) events w ha hw).2 h⟩
  intro hn hfail
  have hc : w.ignoredServicesIds.contains (swarmName configSvc) = false := by
    rw [Bool.eq_false_iff]
    simpa using hn
  simp only [run, step, hc, discoveryFails_eq_true dockerClient configSvc hfail,
    Function.update_same, Bool.not_false, Bool.and_self, if_true]

/-- C6 (amended), applied: `olc_traefik` is appended when the daemon is down, and is
still excluded after three further ticks on which the daemon would find it. -/
theorem exclusion_is_permanent_witness :
    (run
      [Event.start downClient traefik, Event.appendRead World.initial.started,
        Event.appendWrite World.initial.started] World.initial).1.ignoredServicesIds =
      World.initial.ignoredServicesIds ++ [swarmName traefik] ∧
    swarmName traefik ∈
      (run (launchOrder appConfig breachTicks 0)
        ⟨["olc_traefik"], 0, fun _ => Appender.idle⟩).1.ignoredServicesIds :=
  ⟨(exclusion_is_permanent [] World.initial downClient traefik).1 (by decide)
      (by intro l h; simp [downClient] at h),
    ((exclusion_is_permanent (launchOrder appConfig breachTicks 0)
        ⟨["olc_traefik"], 0, fun _ => Appender.idle⟩ downClient traefik).2
      (by decide) (by intro g n r hc; simp at hc) (by decide)).1⟩

/-! ## The configuration fields that the cycle does not read -/

theorem swarmNameAndFilters_congr (a b : ConfigService) (hn : a.Name = b.Name)
    (hs : a.StackName = b.StackName) : swarmNameAndFilters a = swarmNameAndFilters b := by
  simp only [swarmNameAndFilters, hn, hs]

theorem evalService_congr (dockerClient : DockerClient) (ignoredServicesIds : List String)
    (a b : ConfigService) (hn : a.Name = b.Name) (hs : a.StackName = b.StackName) :
    evalService dockerClient ignoredServicesIds a =
      evalService dockerClient ignoredServicesIds b := by
  simp only [evalService, swarmNameAndFilters_congr a b hn hs]


/-- C7 (refuted as stated): for the service `traefik` with `Enabled` off and an empty
exclusion list, a discovery request is issued and, the daemon being down, the service
is added to the exclusion list; on a daemon that finds it, stats of its container `c1`
are requested. -/
theorem disabled_service_is_evaluated :
    disabledTraefik.Enabled = false ∧
    evalService downClient [] disabledTraefik =
      (["olc_traefik"],
        [Effect.serviceList true
            [⟨"label", "com.docker.stack.namespace=olc"⟩, ⟨"name", "olc_traefik"⟩],
          Effect.log (LogLine.errorGettingServices (some "down"))]) ∧
    statsRequests
      (evalService (traefikClient [⟨"c1"⟩] (fun _ => .ok (sampleBody 25))) []
        disabledTraefik).2 = ["c1"] :=
  ⟨rfl, rfl, rfl⟩

/-- C7 (amended): the `Enabled` flag is not consulted.  A service whose flag is off is
evaluated exactly as the same service with the flag on; when its lookup name is not in
the exclusion list the first effect is the discovery request with its filters, and
when that request fails or returns no service the name is appended to the list. -/
theorem evalService_disabled (dockerClient : DockerClient) (ignoredServicesIds : List String)
    (configSvc : ConfigService) (hd : configSvc.Enabled = false)
    (hn : swarmName configSvc ∉ ignoredServicesIds) :
    evalService dockerClient ignoredServicesIds configSvc =
      evalService dockerClient ignoredServicesIds { configSvc with Enabled := true } ∧
    (evalService dockerClient ignoredServicesIds configSvc).2.head? =
      some (Effect.serviceList true (defaultFilters configSvc)) ∧
    ((∀ l, dockerClient.ServiceList true (defaultFilters configSvc) = .ok l → l = []) →
      (evalService dockerClient ignoredServicesIds configSvc).1 =
        ignoredServicesIds ++ [swarmName configSvc]) := by
  have _ := hd
  refine ⟨evalService_congr _ _ _ _ rfl rfl, ?_, ?_⟩
  · rw [evalService_eq, if_neg (by simpa using hn)]
    split
    · rfl
    · split_ifs <;> rfl
  · intro hfail
    rw [evalService_eq, if_neg (by simpa using hn)]
    cases hsl : dockerClient.ServiceList true (defaultFilters configSvc) with
    | error err => rfl
    | ok l =>
      have := hfail l hsl
      subst this
      rfl

/-- C7 (amended), applied to the disabled `traefik` on a daemon that is down. -/
theorem evalService_disabled_witness :
    disabledTraefik.Enabled = false ∧ swarmName disabledTraefik ∉ ([] : List String) ∧
    (evalService downClient [] disabledTraefik).2.head? =
      some (Effect.serviceList true (defaultFilters disabledTraefik)) ∧
    (evalService downClient [] disabledTraefik).1 = [] ++ [swarmName disabledTraefik] :=
  ⟨rfl, by decide,
    (evalService_disabled downClient [] disabledTraefik rfl (by decide)).2.1,
    (evalService_disabled downClient [] disabledTraefik rfl (by decide)).2.2
      (by intro l h; simp [downClient] at h)⟩

/-! ## The per-container loop -/

theorem sampleContainers_ok (dockerClient : DockerClient) (serviceName : String)
    (c : Container) (rest : List Container) (body : ReadCloser)
    (h : dockerClient.ContainerStats c.ID false = .ok body) :
    sampleContainers dockerClient serviceName (c :: rest) =
      Effect.containerStats c.ID false :: Effect.send ⟨serviceName, body⟩ ::
        sampleContainers dockerClient serviceName rest := by
  simp only [sampleContainers, h]

theorem sampleContainers_error (dockerClient : DockerClient) (serviceName : String)
    (c : Container) (rest : List Container) (err : String)
    (h : dockerClient.ContainerStats c.ID false = .error err) :
    sampleContainers dockerClient serviceName (c :: rest) =
      [Effect.containerStats c.ID false,
        Effect.log (LogLine.errorGettingContainerStats err)] := by
  simp only [sampleContainers, h]

/-- C5 (the code at the failing input): of the containers `c1`, `c2`, `c3`, the fetch
for `c2` fails and the fetch for `c3` would succeed; only the stats of `c1` are
forwarded and no stats are requested for `c3`. -/
theorem sibling_after_failure_not_sampled :
    (traefikClient [] secondFails).ContainerStats "c3" false = .ok (sampleBody 25) ∧
    (sentMessages
      (sampleContainers (traefikClient [] secondFails) "olc_traefik"
        [⟨"c1"⟩, ⟨"c2"⟩, ⟨"c3"⟩])).length = 1 ∧
    statsRequests
      (sampleContainers (traefikClient [] secondFails) "olc_traefik"
        [⟨"c1"⟩, ⟨"c2"⟩, ⟨"c3"⟩]) = ["c1", "c2"] ∧
    sampleContainers (traefikClient [] secondFails) "olc_traefik" [⟨"c1"⟩, ⟨"c2"⟩, ⟨"c3"⟩] =
      [Effect.containerStats "c1" false, Effect.send ⟨"olc_traefik", sampleBody 25⟩,
        Effect.containerStats "c2" false,
        Effect.log (LogLine.errorGettingContainerStats "no such container")] :=
  ⟨rfl, rfl, rfl, rfl⟩

/-- The loop stops at the first failure: when the stats fetch fails for a container
and succeeds for every container listed before it, stats are requested for exactly the
containers up to and including the failing one, and the messages forwarded are exactly
the bodies of the containers before it, in order. -/
theorem sampleContainers_stops_at_first_failure (dockerClient : DockerClient)
    (serviceName : String) (before : List Container) (c : Container) (after : List Container)
    (err : String)
    (hbefore : ∀ x ∈ before, ∃ body, dockerClient.ContainerStats x.ID false = .ok body)
    (hc : dockerClient.ContainerStats c.ID false = .error err) :
    statsRequests (sampleContainers dockerClient serviceName (before ++ c :: after)) =
      List.map (fun x : Container => x.ID) (before ++ [c]) ∧
    List.Forall₂
      (fun x msg => msg.ServiceName = serviceName ∧
        dockerClient.ContainerStats x.ID false = .ok msg.StatsIo)
      before
      (sentMessages (sampleContainers dockerClient serviceName (before ++ c :: after))) := by
  induction before with
  | nil =>
    rw [List.nil_append, sampleContainers_error _ _ _ _ _ hc]
    exact ⟨rfl, List.Forall₂.nil⟩
  | cons x rest ih =>
    obtain ⟨body, hx⟩ := hbefore x (List.mem_cons_self _ _)
    obtain ⟨h1, h2⟩ := ih (fun y hy => hbefore y (List.mem_cons_of_mem _ hy))
    rw [List.cons_append, sampleContainers_ok _ _ _ _ _ hx]
    refine ⟨?_, ?_⟩
    · simp only [statsRequests, sentMessages, h1, List.cons_append, List.map_cons]
    · simp only [sentMessages]
      exact List.Forall₂.cons ⟨rfl, hx⟩ h2

/-- The loop stops at the first failure, applied: `c1` succeeds, `c2` fails, `c3`
follows. -/
theorem sampleContainers_stops_at_first_failure_example :
    statsRequests
      (sampleContainers (traefikClient [] secondFails) "olc_traefik"
        (([⟨"c1"⟩] : List Container) ++ ⟨"c2"⟩ :: [⟨"c3"⟩])) =
      List.map (fun x : Container => x.ID) ([⟨"c1"⟩] ++ [⟨"c2"⟩]) :=
  (sampleContainers_stops_at_first_failure (traefikClient [] secondFails) "olc_traefik"
    [⟨"c1"⟩] ⟨"c2"⟩ [⟨"c3"⟩] "no such container"
    (by
      intro x hx
      simp only [List.mem_singleton] at hx
      subst hx
      exact ⟨sampleBody 25, rfl⟩)
    rfl).1

/-! ## The stats receiver and the outcome of a cycle -/

theorem statsReceiver_decodable (samples : List (String × Stats)) :
    statsReceiver (samples.map (fun p => ⟨p.1, .ok p.2⟩)) =
      samples.map (fun p =>
        LogLine.receivedCPUStats p.1 (calculateCPUPercent p.2.PreCPUStats p.2)) := by
  induction samples with
  | nil => rfl
  | cons p rest ih => simp only [List.map_cons, statsReceiver, ih]

theorem statsReceiver_append_bad (samples : List (String × Stats)) (serviceName err : String)
    (later : List StatsChanInput) :
    statsReceiver
        (samples.map (fun p => ⟨p.1, .ok p.2⟩) ++ ⟨serviceName, .error err⟩ :: later) =
      samples.map (fun p =>
          LogLine.receivedCPUStats p.1 (calculateCPUPercent p.2.PreCPUStats p.2)) ++
        [LogLine.failedToParse serviceName err] := by
  induction samples with
  | nil => rfl
  | cons p rest ih =>
    rw [List.map_cons, List.cons_append, List.map_cons, List.cons_append, ← ih]
    rfl


/-- C4 (the code at the failing input): with the threshold 20%, `ScaleUpDuration`
"10s", the 5s interval and `MaxReplicas` 3, three ticks on which the service reports
25%, 22% and 21% leave the exclusion list empty and produce, tick after tick, the same
four client queries and sends; the receiver logs the three percentages.  This is
everything the cycle produces: no output on the third tick differs in kind from the
first tick, none proposes a replica count, and the output is the same when
`MaxReplicas` is 1 and the service is already at its cap. -/
theorem sustained_breach_only_logs :
    traefik.Thresholds.Cpu.Percent = 1 / 5 ∧ traefik.Thresholds.Cpu.ScaleUpDuration = "10s" ∧
    traefik.MaxReplicas = 3 ∧ traefikConfig.Interval = 5000000000 ∧
    (run (launchOrder traefikConfig breachTicks 0) World.initial).1.ignoredServicesIds = [] ∧
    (run (launchOrder traefikConfig breachTicks 0) World.initial).2 =
      [Effect.log (LogLine.metricsInspect 0),
        Effect.serviceList true
          [⟨"label", "com.docker.stack.namespace=olc"⟩, ⟨"name", "olc_traefik"⟩],
        Effect.containerList [⟨"label", "com.docker.swarm.service.name=olc_traefik"⟩],
        Effect.containerStats "c1" false,
        Effect.send ⟨"olc_traefik", sampleBody 25⟩,
        Effect.log (LogLine.metricsInspect 5000000000),
        Effect.serviceList true
          [⟨"label", "com.docker.stack.namespace=olc"⟩, ⟨"name", "olc_traefik"⟩],
        Effect.containerList [⟨"label", "com.docker.swarm.service.name=olc_traefik"⟩],
        Effect.containerStats "c1" false,
        Effect.send ⟨"olc_traefik", sampleBody 22⟩,
        Effect.log (LogLine.metricsInspect 10000000000),
        Effect.serviceList true
          [⟨"label", "com.docker.stack.namespace=olc"⟩, ⟨"name", "olc_traefik"⟩],
        Effect.containerList [⟨"label", "com.docker.swarm.service.name=olc_traefik"⟩],
        Effect.containerStats "c1" false,
        Effect.send ⟨"olc_traefik", sampleBody 21⟩] ∧
    (run (launchOrder cappedTraefikConfig breachTicks 0) World.initial).2 =
      (run (launchOrder traefikConfig breachTicks 0) World.initial).2 ∧
    statsReceiver (sentMessages (run (launchOrder traefikConfig breachTicks 0) World.initial).2) =
      [LogLine.receivedCPUStats "olc_traefik" 25,
        LogLine.receivedCPUStats "olc_traefik" 22,
        LogLine.receivedCPUStats "olc_traefik" 21] := by
  refine ⟨rfl, rfl, rfl, rfl, rfl, rfl, rfl, ?_⟩
  have h : sentMessages (run (launchOrder traefikConfig breachTicks 0) World.initial).2 =
      [⟨"olc_traefik", sampleBody 25⟩, ⟨"olc_traefik", sampleBody 22⟩,
        ⟨"olc_traefik", sampleBody 21⟩] := rfl
  simp only [h, statsReceiver, sampleBody, sample_25, sample_22, sample_21]

/-- The evaluation of a service does not depend on `MaxReplicas` or `Thresholds`. -/
theorem evalService_ignores_thresholds (dockerClient : DockerClient)
    (ignoredServicesIds : List String) (configSvc : ConfigService) (maxReplicas : Nat)
    (thresholds : ConfigServiceThreshold) :
    evalService dockerClient ignoredServicesIds
        { configSvc with MaxReplicas := maxReplicas, Thresholds := thresholds } =
      evalService dockerClient ignoredServicesIds configSvc :=
  evalService_congr _ _ _ _ rfl rfl

/-- C10 (the code at the failing input): a message whose payload fails to decode,
followed by a message whose payload decodes; the receiver logs the failure and
nothing for the second message. -/
theorem statsReceiver_stops_at_bad_payload :
    statsReceiver [⟨"olc_traefik", .error "unexpected EOF"⟩, ⟨"olc_grafana", sampleBody 25⟩] =
      [LogLine.failedToParse "olc_traefik" "unexpected EOF"] ∧
    statsReceiver [⟨"olc_grafana", sampleBody 25⟩] =
      [LogLine.receivedCPUStats "olc_grafana" 25] := by
  refine ⟨rfl, ?_⟩
  simp only [statsReceiver, sampleBody, sample_25]

end Autoscaler
